import Mathlib

/-!
Verification of the RF signal decoding and pairing engine of the
nodemcu-server firmware.

The definitions below are a shallow embedding of the C sources:
  * `src/main/rfcodes/signal_parser.c` / `signal_parser.h`  (decoder, composer)
  * `src/main/rfcodes/protocols.h`                          (protocol table)
  * `src/main/rfcodes/signal_collector.c`                   (ISR ring buffer)
  * `src/main/rf.h`, `src/main/pairing.h`, `src/main/relays.h`
                                                            (pairing gate)
Machine integers (`code_time_t` = unsigned int, `uint32_t`) are modelled as
`Nat`; the only place wrap-around of `uint32_t` subtraction matters
(timestamp differences in `rf.h`) is modelled explicitly by `sub32`.
C arrays are modelled as lists (or as functions `Nat → Nat` for the fixed
ring-buffer array); the C fields `time_length`, `seq_len` and
`code_length` are the lengths of the corresponding lists and are not
duplicated.
-/

namespace RFCodes

/-! ### Code/protocol data model (signal_parser.h) -/

def CODE_TYPE_START : Nat := 1
def CODE_TYPE_DATA : Nat := 2
def CODE_TYPE_END : Nat := 4
def CODE_TYPE_ANYDATA : Nat := 3
def CODE_TYPE_ANY : Nat := 6

/-- `signal_code_t`: one code of a protocol.  `time` holds the nominal
ratios (the zero-terminated `time[]` array), `min_time`/`max_time` the
derived windows, `total`/`cnt`/`valid` the per-decode state. -/
structure SignalCode where
  type : Nat
  name : Char
  time : List Nat
  min_time : List Nat
  max_time : List Nat
  total : Nat
  cnt : Nat
  valid : Bool
deriving Repr, DecidableEq

instance : Inhabited SignalCode := ⟨⟨0, ' ', [], [], [], 0, 0, false⟩⟩

/-- `signal_protocol_t`.  `seq` is the current partial sequence
(`seq`/`seq_len` in C). -/
structure SignalProtocol where
  name : String
  min_code_len : Nat
  max_code_len : Nat
  tolerance : Nat
  send_repeat : Nat
  base_time : Nat
  codes : List SignalCode
  seq : List Char
deriving Repr, DecidableEq

/-! ### signal_parser.c private helpers -/

/-- the body of `recalc_protocol` for one code: `t = base_time * time[tl]`,
`radius = (t * tolerance) / 100`, window `[t - radius, t + radius]`. -/
def recalcCode (tolerance base : Nat) (c : SignalCode) : SignalCode :=
  { c with
    min_time := c.time.map (fun r => base * r - (base * r * tolerance) / 100),
    max_time := c.time.map (fun r => base * r + (base * r * tolerance) / 100) }

/-- `recalc_protocol` — recompute every code's windows from `base`. -/
def recalc_protocol (p : SignalProtocol) (base : Nat) : SignalProtocol :=
  { p with codes := p.codes.map (recalcCode p.tolerance base) }

def resetCode (c : SignalCode) : SignalCode :=
  { c with valid := true, cnt := 0, total := 0 }

/-- `reset_codes` — revalidate all codes, clearing progress. -/
def reset_codes (p : SignalProtocol) : SignalProtocol :=
  { p with codes := p.codes.map resetCode }

/-- `reset_protocol` — clear the sequence, reset all codes, recompute the
windows from the protocol's nominal base time. -/
def reset_protocol (p : SignalProtocol) : SignalProtocol :=
  recalc_protocol (reset_codes { p with seq := [] }) p.base_time

/-- `use_callback` payload: `"<protocolname> <sequence>"`. -/
def mkEvent (p : SignalProtocol) : String :=
  String.mk (p.name.data ++ ' ' :: p.seq)

/-- in-place update of code number `k` (the write-backs through pointer
`c` in the C loop). -/
def setCode (p : SignalProtocol) (k : Nat) (c : SignalCode) : SignalProtocol :=
  { p with codes := p.codes.set k c }

/-- the completion block of `parse_protocol` (lines 141-172): `c1` is the
completed code (with `total` and `cnt` already updated).  When the
sequence is still empty the base time is recalibrated to
`c->total / Σ c->time` before the code character is appended; then all
codes are reset and the End/max-length termination checks run. -/
def finishCode (p : SignalProtocol) (k : Nat) (c1 : SignalCode) :
    SignalProtocol × Option String :=
  let p1 := setCode p k c1
  let p2 := if p1.seq.length = 0 then
              recalc_protocol p1 (c1.total / c1.time.sum)
            else p1
  let p3 := reset_codes { p2 with seq := p2.seq ++ [c1.name] }
  if c1.type = CODE_TYPE_END ∧ p3.seq.length < p3.min_code_len then
    (reset_protocol p3, none)
  else if c1.type &&& CODE_TYPE_END ≠ 0 ∧ p3.min_code_len ≤ p3.seq.length then
    (reset_protocol p3, some (mkEvent p3))
  else if p3.seq.length = p3.max_code_len then
    (reset_protocol p3, some (mkEvent p3))
  else
    (p3, none)

/-- Result of the `parse_protocol` code loop: final protocol state, the
`any_valid` accumulator, the emitted callback payload (if any) and the
number of times the "retry as new start" branch ran. -/
structure LoopOut where
  prot : SignalProtocol
  anyValid : Bool
  event : Option String
  retries : Nat
deriving Repr, DecidableEq

/-- The `while (c && c_cnt)` loop of `parse_protocol`.  `k` is the index
of the current code, `av` the `any_valid` accumulator.  The loop either
advances to `k+1`, or (retry branch, `i == 1 && seq_len == 0`) resets the
whole protocol and re-examines the same duration starting from the same
code, or breaks on code completion.  `fuel` is an upper bound on the
number of iterations; the C loop terminates because the retry branch can
fire at most once per call (after the reset every `cnt` is 0), so
`2 * codes.length + 2` fuel is always enough. -/
def parseLoop (d : Nat) : Nat → SignalProtocol → Nat → Bool → LoopOut
  | 0, p, _, av => ⟨p, av, none, 0⟩
  | fuel+1, p, k, av =>
    if k < p.codes.length then
      let c := p.codes.getD k default
      if c.valid then
        let i := c.cnt
        if p.seq.length = 0 ∧ c.type &&& CODE_TYPE_START = 0 then
          -- not acceptable as a first code
          parseLoop d fuel (setCode p k { c with valid := false }) (k+1) av
        else if 0 < p.seq.length ∧ c.type &&& CODE_TYPE_ANY = 0 then
          -- not acceptable during receiving
          parseLoop d fuel (setCode p k { c with valid := false }) (k+1) av
        else if d < c.min_time.getD i 0 ∨ c.max_time.getD i 0 < d then
          if i = 1 ∧ p.seq.length = 0 then
            -- reanalyze this duration as a first duration for starting
            let out := parseLoop d fuel (reset_protocol p) k av
            { out with retries := out.retries + 1 }
          else
            parseLoop d fuel (setCode p k { c with valid := false }) (k+1) av
        else
          let c1 := { c with valid := true, total := c.total + d, cnt := i + 1 }
          if i + 1 = c1.time.length then
            let fin := finishCode p k c1
            ⟨fin.1, true, fin.2, 0⟩
          else
            parseLoop d fuel (setCode p k c1) (k+1) true
      else
        parseLoop d fuel p (k+1) av
    else
      ⟨p, av, none, 0⟩

/-- `parse_protocol`: run the code loop over the whole table; if no code
survived, reset the protocol.  Returns the new state and the callback
payload (if a sequence completed). -/
def parse_protocol (p : SignalProtocol) (d : Nat) : SignalProtocol × Option String :=
  let out := parseLoop d (2 * p.codes.length + 2) p 0 false
  (if out.anyValid then out.prot else reset_protocol out.prot, out.event)

/-! ### signal_parser.c public functions -/

/-- `find_protocol`: the loop leaves `p` at the last examined protocol,
so an unknown name yields the **last** loaded protocol (`none` only when
the table is empty). -/
def find_protocol : List SignalProtocol → String → Option SignalProtocol
  | [], _ => none
  | p :: rest, n =>
      if p.name = n then some p
      else if rest.isEmpty then some p
      else find_protocol rest n

/-- `find_code`: first code with the given character name. -/
def find_code (p : SignalProtocol) (ch : Char) : Option SignalCode :=
  p.codes.find? (fun c => c.name = ch)

/-- `signal_parser_get_send_repeat`. -/
def signal_parser_get_send_repeat (ps : List SignalProtocol) (n : String) : Nat :=
  match find_protocol ps n with
  | some p => p.send_repeat
  | none => 0

/-- `signal_parser_parse`: feed one duration to every loaded protocol, in
load order.  Returns new protocol states and the emitted events. -/
def signal_parser_parse (ps : List SignalProtocol) (d : Nat) :
    List SignalProtocol × List String :=
  (ps.map (fun p => (parse_protocol p d).1),
   ps.filterMap (fun p => (parse_protocol p d).2))

/-- Feed a stream of durations, collecting all emitted events. -/
def feed (ps : List SignalProtocol) (ds : List Nat) :
    List SignalProtocol × List String :=
  ds.foldl (fun acc d =>
    let r := signal_parser_parse acc.1 d
    (r.1, acc.2 ++ r.2)) (ps, [])

/-- the inner `while (*s && len)` loop of `signal_parser_compose`: for
each code character emit the midpoints `(min_time[i]+max_time[i])/2` of
its slots, then the terminating 0. -/
def composeCodes (p : SignalProtocol) : List Char → Nat → List Nat
  | [], _ => [0]
  | _ :: _, 0 => [0]
  | ch :: rest, len+1 =>
      (match find_code p ch with
       | some c =>
           (List.range c.time.length).map
             (fun i => (c.min_time.getD i 0 + c.max_time.getD i 0) / 2)
       | none => []) ++ composeCodes p rest len

/-- `signal_parser_compose`: split `"<protocolname> <codes>"`, look the
protocol up and emit the timing list (zero-terminated).  Nothing is
written when there is no space or no protocol table entry. -/
def signal_parser_compose (ps : List SignalProtocol) (sequence : List Char)
    (len : Nat) : List Nat :=
  if ' ' ∈ sequence then
    match find_protocol ps (String.mk (sequence.takeWhile (fun ch => ch ≠ ' '))) with
    | some p => composeCodes p ((sequence.dropWhile (fun ch => ch ≠ ' ')).drop 1) len
    | none => []
  else []

/-! ### Protocol table (protocols.h)

`signal_parser_load` computes the `time_length`/`code_length` fields
(list lengths here) and then resets the protocol, so the loaded state of
a protocol is `reset_protocol` of its table entry. -/

def mkCode (ty : Nat) (nm : Char) (ts : List Nat) : SignalCode :=
  { type := ty, name := nm, time := ts, min_time := [], max_time := [],
    total := 0, cnt := 0, valid := true }

def protocol_it1 : SignalProtocol :=
  { name := "it1", min_code_len := 13, max_code_len := 13, tolerance := 25,
    send_repeat := 4, base_time := 400,
    codes := [mkCode CODE_TYPE_START 'B' [1, 31],
              mkCode CODE_TYPE_DATA '0' [1, 3, 3, 1],
              mkCode CODE_TYPE_DATA '1' [1, 3, 1, 3]],
    seq := [] }

def protocol_it2 : SignalProtocol :=
  { name := "it2", min_code_len := 34, max_code_len := 48, tolerance := 25,
    send_repeat := 10, base_time := 280,
    codes := [mkCode CODE_TYPE_START 's' [1, 10],
              mkCode CODE_TYPE_DATA '_' [1, 1, 1, 5],
              mkCode CODE_TYPE_DATA '#' [1, 5, 1, 1],
              mkCode CODE_TYPE_DATA 'D' [1, 1, 1, 1],
              mkCode CODE_TYPE_END 'x' [1, 38]],
    seq := [] }

def protocol_sc5 : SignalProtocol :=
  { name := "sc5", min_code_len := 13, max_code_len := 13, tolerance := 25,
    send_repeat := 3, base_time := 100,
    codes := [mkCode CODE_TYPE_ANYDATA '0' [4, 12, 4, 12],
              mkCode CODE_TYPE_ANYDATA '1' [12, 4, 12, 4],
              mkCode CODE_TYPE_ANYDATA 'f' [4, 12, 12, 4],
              mkCode CODE_TYPE_END 'S' [4, 124]],
    seq := [] }

def protocol_ev1527 : SignalProtocol :=
  { name := "ev1527", min_code_len := 25, max_code_len := 25, tolerance := 25,
    send_repeat := 3, base_time := 320,
    codes := [mkCode CODE_TYPE_START 's' [1, 31],
              mkCode CODE_TYPE_DATA '0' [1, 3],
              mkCode CODE_TYPE_DATA '1' [3, 1]],
    seq := [] }

def protocol_cw : SignalProtocol :=
  { name := "cw", min_code_len := 59, max_code_len := 59, tolerance := 16,
    send_repeat := 3, base_time := 500,
    codes := [mkCode CODE_TYPE_START 'H' [2, 2, 2, 2, 2],
              mkCode CODE_TYPE_DATA 's' [1, 1],
              mkCode CODE_TYPE_DATA 'l' [2]],
    seq := [] }

/-- `signal_parser_load` on a table entry (with the protocol's own base
time, as `rf_receiver_init` does). -/
def signal_parser_load (p : SignalProtocol) : SignalProtocol :=
  reset_protocol p

def ev1527_loaded : SignalProtocol := signal_parser_load protocol_ev1527

/-- ev1527 decode state in flight: windows recalibrated to base `b`,
sequence `s` accumulated, all codes fresh. -/
def evState (b : Nat) (s : List Char) : SignalProtocol :=
  recalc_protocol { protocol_ev1527 with seq := s } b

/-! Concrete ev1527 test fixtures: a 24-bit payload and its nominal
duration stream (base time 320: bit '0' = 320,960 and '1' = 960,320,
start = 320,9920). -/

def ev1527_demo_bits : List Char := "010011001010111100001000".data

def ev1527_bit_pair (c : Char) : List Nat :=
  if c = '0' then [320, 960] else [960, 320]

def ev1527_demo_stream : List Nat :=
  [320, 9920] ++ ev1527_demo_bits.flatMap ev1527_bit_pair

/-! ### Handoff ring buffer (signal_collector.c)

The fixed `code_time_t buf88[SC_BUFFERSIZE]` array is modelled as a
function `Nat → Nat`; `write`/`read` are the offsets of `ring_write` and
`buf88_read` from `buf88`, `cnt` is `buf88_cnt`. -/

def SC_BUFFERSIZE : Nat := 512

structure RingBuf where
  data : Nat → Nat
  write : Nat
  read : Nat
  cnt : Nat

def rb_init : RingBuf := ⟨fun _ => 0, 0, 0, 0⟩

/-- the buffer write performed by `signal_change_handler` (and by
`signal_collector_inject_timing`): store only when `cnt < SC_BUFFERSIZE`,
advance and wrap the write pointer; otherwise drop the sample. -/
def rb_enqueue (b : RingBuf) (t : Nat) : RingBuf :=
  if b.cnt < SC_BUFFERSIZE then
    { data := fun j => if j = b.write then t else b.data j,
      write := (b.write + 1) % SC_BUFFERSIZE,
      read := b.read,
      cnt := b.cnt + 1 }
  else b

def rb_enqueueAll (b : RingBuf) (ts : List Nat) : RingBuf := ts.foldl rb_enqueue b

/-- one dequeue step of `signal_collector_loop`. -/
def rb_dequeue (b : RingBuf) : Nat × RingBuf :=
  (b.data b.read,
   { b with read := (b.read + 1) % SC_BUFFERSIZE, cnt := b.cnt - 1 })

def rb_drainAux : Nat → RingBuf → List Nat
  | 0, _ => []
  | n+1, b => (rb_dequeue b).1 :: rb_drainAux n (rb_dequeue b).2

/-- `signal_collector_loop` as seen by the parser: the samples dequeued,
in order, until `cnt` reaches 0. -/
def rb_drain (b : RingBuf) : List Nat := rb_drainAux b.cnt b

/-! ### Pairing gate (rf.h, pairing.h, relays.h, config.h) -/

def NUM_RELAYS : Nat := 4
def RF_DEBOUNCE_MS : Nat := 200
def RF_HOLD_TIMEOUT_MS : Nat := 500
def PROTNAME_LEN : Nat := 12

/-- `uint32_t` subtraction `a - b` (timestamps in `rf.h`). -/
def sub32 (a b : Nat) : Nat := (a + 4294967296 - b) % 4294967296

/-- The mutable state read and written by `rf_code_received_callback`:
the debounce pair (`last_rf_code`, `last_rf_time`), the per-relay
`last_toggle_time[4]`, the `pairing_state` of pairing.h and the
`relay_states` of relays.h. -/
structure RFState where
  last_rf_code : String
  last_rf_time : Nat
  last_toggle_time : List Nat
  pairing_mode_active : Bool
  is_paired : Bool
  rf_address : String
  relay_states : List Nat
deriving Repr, DecidableEq

/-- `rf_parse_ev1527`: a sequence is valid iff it has exactly 25
characters and starts with 's'; returns the 20 address characters and the
4 data bits folded into a number msb-first. -/
def rf_parse_ev1527 (sequence : List Char) : Option (List Char × Nat) :=
  if sequence.length = 25 ∧ sequence.getD 0 ' ' = 's' then
    some ((sequence.drop 1).take 20,
      ((sequence.drop 21).take 4).foldl
        (fun acc ch => acc * 2 + (if ch = '1' then 1 else 0)) 0)
  else none

/-- `relay_get` of relays.h. -/
def relay_get (relays : List Nat) (r : Nat) : Nat :=
  if NUM_RELAYS ≤ r then 0 else relays.getD r 0

/-- `relay_set` of relays.h (GPIO/NVS side effects are outside the
model). -/
def relay_set (relays : List Nat) (r : Nat) (v : Nat) : List Nat :=
  if NUM_RELAYS ≤ r then relays else relays.set r v

/-- the `switch (data)` button map of `rf_code_received_callback`. -/
def button_relay (data : Nat) : Option Nat :=
  if data = 8 then some 0
  else if data = 4 then some 1
  else if data = 2 then some 2
  else if data = 1 then some 3
  else none

structure RFOut where
  st : RFState
  calls : List (Nat × Nat)
deriving Repr, DecidableEq

/-- `rf_code_received_callback`.  `saveOk` is the outcome of the NVS
write performed by `pairing_save_address` (which, on success, stores the
address and sets `is_paired`; `pairing_exit_mode` then clears the mode
flag).  `calls` records the `relay_set` invocations. -/
def rf_code_received_callback (saveOk : Bool) (now : Nat) (code : String)
    (st : RFState) : RFOut :=
  if code = st.last_rf_code ∧ sub32 now st.last_rf_time < RF_DEBOUNCE_MS then
    ⟨st, []⟩
  else
    let st1 := { st with last_rf_code := code, last_rf_time := now }
    if ' ' ∈ code.data then
      let protoChars := code.data.takeWhile (fun ch => ch ≠ ' ')
      if PROTNAME_LEN ≤ protoChars.length then ⟨st1, []⟩
      else if String.mk protoChars = "ev1527" then
        let sequence := (code.data.dropWhile (fun ch => ch ≠ ' ')).drop 1
        match rf_parse_ev1527 sequence with
        | none => ⟨st1, []⟩
        | some (address, data) =>
          if st1.pairing_mode_active then
            if saveOk then
              ⟨{ st1 with rf_address := String.mk address, is_paired := true,
                          pairing_mode_active := false }, []⟩
            else ⟨st1, []⟩
          else if st1.is_paired = false then ⟨st1, []⟩
          else if String.mk address ≠ st1.rf_address then ⟨st1, []⟩
          else
            match button_relay data with
            | none => ⟨st1, []⟩
            | some r =>
              if NUM_RELAYS ≤ r then ⟨st1, []⟩
              else if sub32 now (st1.last_toggle_time.getD r 0) < RF_HOLD_TIMEOUT_MS then
                ⟨st1, []⟩
              else
                let nv := if relay_get st1.relay_states r = 0 then 1 else 0
                ⟨{ st1 with relay_states := relay_set st1.relay_states r nv,
                            last_toggle_time := st1.last_toggle_time.set r now },
                 [(r, nv)]⟩
      else ⟨st1, []⟩
    else ⟨st1, []⟩

/-! ## Static protocol data

`parse_protocol` only mutates the per-decode state (`valid`, `cnt`,
`total`, the windows, the sequence); the declarative data (name, length
bounds, tolerance, repeat, base time, code types/names/ratios) is never
written.  `reset_protocol` is a function of that static data alone. -/

def codeStatic (c : SignalCode) : Nat × Char × List Nat := (c.type, c.name, c.time)

def protStatic (p : SignalProtocol) :
    String × Nat × Nat × Nat × Nat × Nat × List (Nat × Char × List Nat) :=
  (p.name, p.min_code_len, p.max_code_len, p.tolerance, p.send_repeat, p.base_time,
   p.codes.map codeStatic)

/-! ## ev1527 decode states and window predicates

`evWindow b r d` says duration `d` lies in the `[min,max]` window that
`recalc_protocol` computes for ratio `r` at base time `b` and the ev1527
tolerance of 25 percent. -/

def evWindow (b r d : Nat) : Prop :=
  b * r - (b * r * 25) / 100 ≤ d ∧ d ≤ b * r + (b * r * 25) / 100

instance (b r d : Nat) : Decidable (evWindow b r d) := by
  unfold evWindow
  exact instDecidableAnd

/-- a duration pair carrying bit '0' (ratios 1,3) for ev1527 at base `b`. -/
def fitsBit0 (b : Nat) (pr : Nat × Nat) : Prop :=
  evWindow b 1 pr.1 ∧ evWindow b 3 pr.2

/-- a duration pair carrying bit '1' (ratios 3,1). -/
def fitsBit1 (b : Nat) (pr : Nat × Nat) : Prop :=
  evWindow b 3 pr.1 ∧ evWindow b 1 pr.2

instance (b : Nat) (pr : Nat × Nat) : Decidable (fitsBit0 b pr) := by
  unfold fitsBit0
  exact instDecidableAnd

instance (b : Nat) (pr : Nat × Nat) : Decidable (fitsBit1 b pr) := by
  unfold fitsBit1
  exact instDecidableAnd

def bitFits (b : Nat) (pr : Nat × Nat) : Prop := fitsBit0 b pr ∨ fitsBit1 b pr

instance (b : Nat) (pr : Nat × Nat) : Decidable (bitFits b pr) := by
  unfold bitFits
  exact instDecidableOr

/-- the bit a pair decodes to. -/
def bitChar (b : Nat) (pr : Nat × Nat) : Char :=
  if fitsBit0 b pr then '0' else '1'

def flatPairs : List (Nat × Nat) → List Nat
  | [] => []
  | pr :: rest => pr.1 :: pr.2 :: flatPairs rest

/-- the nominal (midpoint) duration pair composed for a data bit at the
table base 320: `'0'` is 320, 960 and `'1'` is 960, 320. -/
def ev_mid_pair (c : Char) : Nat × Nat :=
  if c = '0' then (320, 960) else (960, 320)

/-- single-protocol stream feed (what `feed [p]` computes, see
`feed_eq_feedProt`). -/
def feedProt (p : SignalProtocol) : List Nat → SignalProtocol × List String
  | [] => (p, [])
  | d :: ds =>
    let r := parse_protocol p d
    let rest := feedProt r.1 ds
    (rest.1, r.2.toList ++ rest.2)

def evCodeS (b : Nat) : SignalCode := recalcCode 25 b (mkCode CODE_TYPE_START 's' [1, 31])
def evCode0 (b : Nat) : SignalCode := recalcCode 25 b (mkCode CODE_TYPE_DATA '0' [1, 3])
def evCode1 (b : Nat) : SignalCode := recalcCode 25 b (mkCode CODE_TYPE_DATA '1' [3, 1])

/-- state after the first start pulse: `'s'` half-matched, data codes
invalidated. -/
def evS1 (d0 : Nat) : SignalProtocol :=
  { evState 320 [] with
    codes := [{ evCodeS 320 with cnt := 1, total := d0 },
              { evCode0 320 with valid := false },
              { evCode1 320 with valid := false }] }

/-- mid-bit state: first duration of a '0' matched. -/
def evA0 (b : Nat) (s : List Char) (x : Nat) : SignalProtocol :=
  { evState b s with
    codes := [{ evCodeS b with valid := false },
              { evCode0 b with cnt := 1, total := x },
              { evCode1 b with valid := false }] }

/-- mid-bit state: first duration of a '1' matched. -/
def evA1 (b : Nat) (s : List Char) (x : Nat) : SignalProtocol :=
  { evState b s with
    codes := [{ evCodeS b with valid := false },
              { evCode0 b with valid := false },
              { evCode1 b with cnt := 1, total := x }] }

/-! ## Ring buffer lemmas (claim C9) -/

/-- `b` holds exactly the queue `q`: `q` lives at offsets
`read, read+1, …` (mod `SC_BUFFERSIZE`) of the array. -/
def rbRep (b : RingBuf) (q : List Nat) : Prop :=
  b.cnt = q.length ∧ q.length ≤ SC_BUFFERSIZE ∧ b.read < SC_BUFFERSIZE ∧
  b.write = (b.read + q.length) % SC_BUFFERSIZE ∧
  ∀ i, i < q.length → b.data ((b.read + i) % SC_BUFFERSIZE) = q.getD i 0

lemma rbRep_init : rbRep rb_init [] := by
  refine ⟨rfl, by simp [SC_BUFFERSIZE], by simp [rb_init, SC_BUFFERSIZE], rfl, ?_⟩
  intro i hi
  simp at hi

lemma rbRep_enqueue {b : RingBuf} {q : List Nat} (h : rbRep b q)
    (hlt : q.length < SC_BUFFERSIZE) (t : Nat) :
    rbRep (rb_enqueue b t) (q ++ [t]) := by
  obtain ⟨hc, hle, hr, hw, hd⟩ := h
  have hbranch : b.cnt < SC_BUFFERSIZE := by omega
  simp only [rb_enqueue, if_pos hbranch]
  refine ⟨by simp [hc], by simp [SC_BUFFERSIZE] at hlt ⊢; omega, hr, ?_, ?_⟩
  · simp only [hw, List.length_append, List.length_singleton, SC_BUFFERSIZE] at *
    omega
  · intro i hi
    simp only [List.length_append, List.length_singleton] at hi
    rcases Nat.lt_or_ge i q.length with hiq | hiq
    · have hne : (b.read + i) % SC_BUFFERSIZE ≠ b.write := by
        simp only [hw, SC_BUFFERSIZE] at *
        omega
      simp only [if_neg hne]
      rw [hd i hiq, List.getD_append _ _ _ _ (by omega)]
    · have hieq : i = q.length := by omega
      subst hieq
      have heq : (b.read + q.length) % SC_BUFFERSIZE = b.write := by rw [hw]
      simp only [if_pos heq]
      rw [List.getD_append_right _ _ _ _ (by omega)]
      simp

lemma rb_enqueue_full {b : RingBuf} (hfull : b.cnt = SC_BUFFERSIZE) (t : Nat) :
    rb_enqueue b t = b := by
  simp [rb_enqueue, hfull]

lemma rbRep_enqueueAll {b : RingBuf} {q : List Nat} (h : rbRep b q) (ts : List Nat) :
    rbRep (rb_enqueueAll b ts) ((q ++ ts).take SC_BUFFERSIZE) := by
  induction ts generalizing b q with
  | nil =>
    simpa [rb_enqueueAll, List.take_of_length_le h.2.1] using h
  | cons t ts ih =>
    rcases Nat.lt_or_ge q.length SC_BUFFERSIZE with hlt | hge
    · have h2 := ih (rbRep_enqueue h hlt t)
      simpa [rb_enqueueAll, List.foldl_cons] using h2
    · have hq : q.length = SC_BUFFERSIZE := le_antisymm h.2.1 hge
      have hfull : b.cnt = SC_BUFFERSIZE := by rw [h.1, hq]
      have h2 := ih h
      have hstop : ∀ rest : List Nat, (q ++ rest).take SC_BUFFERSIZE = q := by
        intro rest
        rw [List.take_append_eq_append_take, List.take_of_length_le (le_of_eq hq),
          hq, Nat.sub_self, List.take_zero, List.append_nil]
      rw [hstop] at h2
      simpa [rb_enqueueAll, List.foldl_cons, rb_enqueue_full hfull, hstop] using h2

lemma rbRep_drain {b : RingBuf} {q : List Nat} (h : rbRep b q) : rb_drain b = q := by
  have aux : ∀ (q : List Nat) (b : RingBuf), rbRep b q → rb_drainAux q.length b = q := by
    intro q
    induction q with
    | nil => intro b _; rfl
    | cons x q ih =>
      intro b hb
      obtain ⟨hc, hle, hr, hw, hd⟩ := hb
      have hx : b.data b.read = x := by
        have := hd 0 (by simp)
        simpa [Nat.mod_eq_of_lt hr] using this
      have hrep : rbRep (rb_dequeue b).2 q := by
        refine ⟨by simp [rb_dequeue, hc], by simp at hle; omega,
                by simp [rb_dequeue, SC_BUFFERSIZE]; omega, ?_, ?_⟩
        · simp only [rb_dequeue, hw, List.length_cons, SC_BUFFERSIZE]
          simp only [SC_BUFFERSIZE] at hr
          omega
        · intro i hi
          have := hd (i + 1) (by simpa using Nat.succ_lt_succ hi)
          have hidx : ((b.read + 1) % SC_BUFFERSIZE + i) % SC_BUFFERSIZE
              = (b.read + (i + 1)) % SC_BUFFERSIZE := by
            simp only [SC_BUFFERSIZE]
            omega
          simpa [rb_dequeue, hidx] using this
      have := ih _ hrep
      simp [List.length_cons, rb_drainAux, rb_dequeue, hx] at *
      exact this
  rw [rb_drain, h.1]
  exact aux q b h

/-- Claim C9: starting from the fresh handoff buffer, any sequence of
enqueues without dequeues keeps the count at `min length SC_BUFFERSIZE`
(never above `SC_BUFFERSIZE` = 512); an enqueue on a full buffer changes
nothing (array, write pointer and count unchanged: the sample is dropped
silently); and the consumer dequeues exactly the first `SC_BUFFERSIZE`
samples, in FIFO order — oldest retained, newest dropped. -/
theorem c9_buffer_overflow_policy (xs : List Nat) :
    (rb_enqueueAll rb_init xs).cnt = min xs.length SC_BUFFERSIZE ∧
    (rb_enqueueAll rb_init xs).cnt ≤ SC_BUFFERSIZE ∧
    rb_drain (rb_enqueueAll rb_init xs) = xs.take SC_BUFFERSIZE ∧
    (∀ (b : RingBuf) (t : Nat), b.cnt = SC_BUFFERSIZE → rb_enqueue b t = b) := by
  have h := rbRep_enqueueAll rbRep_init xs
  simp only [List.nil_append] at h
  refine ⟨?_, ?_, rbRep_drain h, fun b t hb => rb_enqueue_full hb t⟩
  · rw [h.1, List.length_take, Nat.min_comm]
  · rw [h.1, List.length_take]
    omega

/-- Witness for C9: a concrete drain and a concrete full-buffer drop. -/
theorem c9_buffer_overflow_policy_witness :
    rb_drain (rb_enqueueAll rb_init [3, 4, 5]) = [3, 4, 5] ∧
    rb_enqueue ⟨fun _ => 0, 0, 0, 512⟩ 7 = ⟨fun _ => 0, 0, 0, 512⟩ := by
  constructor
  · have := (c9_buffer_overflow_policy [3, 4, 5]).2.2.1
    simpa using this
  · exact (c9_buffer_overflow_policy []).2.2.2 ⟨fun _ => 0, 0, 0, 512⟩ 7 rfl

/-! ## find_protocol fallback lemmas (claim C10) -/

lemma find_protocol_no_match (ps : List SignalProtocol) (q : SignalProtocol)
    (name : String) (hno : ∀ p ∈ ps ++ [q], p.name ≠ name) :
    find_protocol (ps ++ [q]) name = some q := by
  induction ps with
  | nil =>
    simp only [List.nil_append, find_protocol]
    split <;> simp
  | cons p ps ih =>
    have hne : p.name ≠ name := hno p (by simp)
    have hrest : ∀ r ∈ ps ++ [q], r.name ≠ name := by
      intro r hr
      refine hno r ?_
      simp only [List.cons_append, List.mem_cons]
      exact Or.inr hr
    simp only [List.cons_append, find_protocol]
    rw [if_neg hne, if_neg (by simp [List.isEmpty_iff])]
    exact ih hrest

lemma takeWhile_until_space (l1 l2 : List Char) (h : ' ' ∉ l1) :
    (l1 ++ ' ' :: l2).takeWhile (fun ch => ch ≠ ' ') = l1 := by
  induction l1 with
  | nil => simp [List.takeWhile_cons]
  | cons c cs ih =>
    have hc : c ≠ ' ' := fun hh => h (by simp [hh])
    have hcs : ' ' ∉ cs := fun hh => h (List.mem_cons_of_mem c hh)
    simp only [List.cons_append, List.takeWhile_cons]
    rw [if_pos (by simp [hc]), ih hcs]

lemma dropWhile_until_space (l1 l2 : List Char) (h : ' ' ∉ l1) :
    (l1 ++ ' ' :: l2).dropWhile (fun ch => ch ≠ ' ') = ' ' :: l2 := by
  induction l1 with
  | nil => simp [List.dropWhile_cons]
  | cons c cs ih =>
    have hc : c ≠ ' ' := fun hh => h (by simp [hh])
    have hcs : ' ' ∉ cs := fun hh => h (List.mem_cons_of_mem c hh)
    simp only [List.cons_append, List.dropWhile_cons]
    rw [if_pos (by simp [hc]), ih hcs]

/-- Claim C10: with at least one protocol loaded, a name that matches no
loaded protocol makes `find_protocol` return the **last** loaded protocol
(not a not-found result); hence `signal_parser_get_send_repeat` on an
unknown name returns the last protocol's `send_repeat` (and returns 0
when no protocols are loaded), and `signal_parser_compose` renders the
code characters against the last protocol's code table. -/
theorem c10_unknown_protocol_fallback (ps : List SignalProtocol)
    (q : SignalProtocol) (name : String)
    (hno : ∀ p ∈ ps ++ [q], p.name ≠ name) (hsp : ' ' ∉ name.data) :
    find_protocol (ps ++ [q]) name = some q ∧
    signal_parser_get_send_repeat (ps ++ [q]) name = q.send_repeat ∧
    signal_parser_get_send_repeat [] name = 0 ∧
    (∀ (seqc : List Char) (len : Nat),
      signal_parser_compose (ps ++ [q]) (name.data ++ ' ' :: seqc) len
        = composeCodes q seqc len) := by
  have hfind := find_protocol_no_match ps q name hno
  refine ⟨hfind, ?_, rfl, ?_⟩
  · rw [signal_parser_get_send_repeat, hfind]
  · intro seqc len
    have hmem : ' ' ∈ name.data ++ ' ' :: seqc := by simp
    have htk := takeWhile_until_space name.data seqc hsp
    have hdp := dropWhile_until_space name.data seqc hsp
    rw [signal_parser_compose, if_pos hmem, htk]
    have hname : String.mk name.data = name := by
      cases name
      rfl
    rw [hname, hfind, hdp]
    simp

/-- Witness for C10 at a concrete two-protocol table and unknown name. -/
theorem c10_unknown_protocol_fallback_witness :
    find_protocol [protocol_it1, protocol_ev1527] "nosuch" = some protocol_ev1527 ∧
    signal_parser_get_send_repeat [protocol_it1, protocol_ev1527] "nosuch" = 3 ∧
    signal_parser_compose [protocol_it1, protocol_ev1527]
        ("nosuch".data ++ ' ' :: "s01".data) 256
      = composeCodes protocol_ev1527 "s01".data 256 := by
  have h := c10_unknown_protocol_fallback [protocol_it1] protocol_ev1527 "nosuch"
      (by decide) (by decide)
  exact ⟨h.1, h.2.1, h.2.2.2 "s01".data 256⟩

/-! ## Pairing gate lemmas (claims C3, C4) -/

/-- Reduction of `rf_code_received_callback` on a non-debounced ev1527
event with a parseable sequence: only the pairing / address / button /
hold dispatch remains. -/
lemma rf_callback_reduce (saveOk : Bool) (now : Nat) (st : RFState) (code : String)
    (seqc addr : List Char) (data : Nat)
    (hcode : code.data = "ev1527".data ++ ' ' :: seqc)
    (hdeb : ¬(code = st.last_rf_code ∧ sub32 now st.last_rf_time < RF_DEBOUNCE_MS))
    (hparse : rf_parse_ev1527 seqc = some (addr, data)) :
    rf_code_received_callback saveOk now code st =
      (let st1 := { st with last_rf_code := code, last_rf_time := now }
       if st1.pairing_mode_active then
         if saveOk then
           ⟨{ st1 with rf_address := String.mk addr, is_paired := true,
                       pairing_mode_active := false }, []⟩
         else ⟨st1, []⟩
       else if st1.is_paired = false then ⟨st1, []⟩
       else if String.mk addr ≠ st1.rf_address then ⟨st1, []⟩
       else
         match button_relay data with
         | none => ⟨st1, []⟩
         | some r =>
           if NUM_RELAYS ≤ r then ⟨st1, []⟩
           else if sub32 now (st1.last_toggle_time.getD r 0) < RF_HOLD_TIMEOUT_MS then
             ⟨st1, []⟩
           else
             let nv := if relay_get st1.relay_states r = 0 then 1 else 0
             ⟨{ st1 with relay_states := relay_set st1.relay_states r nv,
                         last_toggle_time := st1.last_toggle_time.set r now },
              [(r, nv)]⟩) := by
  unfold rf_code_received_callback
  rw [if_neg hdeb]
  simp only [hcode, takeWhile_until_space "ev1527".data seqc (by decide),
    dropWhile_until_space "ev1527".data seqc (by decide),
    List.drop_succ_cons, List.drop_zero, hparse]
  simp [PROTNAME_LEN]

lemma getD_set_self {l : List Nat} {r v : Nat} (h : r < l.length) :
    (l.set r v).getD r 0 = v := by
  simp [List.getD_eq_getElem?_getD, List.getElem?_set_self, h]

lemma button_relay_lt {data r : Nat} (h : button_relay data = some r) : r < 4 := by
  unfold button_relay at h
  split_ifs at h <;> simp only [Option.some.injEq, reduceCtorEq] at h <;> omega

lemma sub32_of_le {a b : Nat} (hba : b ≤ a) (ha : a < 4294967296) :
    sub32 a b = a - b := by
  unfold sub32
  omega

/-- The toggle path of `rf_code_received_callback`: Paired, address
matched, mapped button, hold timeout elapsed. -/
lemma rf_callback_toggle (saveOk : Bool) (now : Nat) (st : RFState) (code : String)
    (seqc addr : List Char) (data r : Nat)
    (hcode : code.data = "ev1527".data ++ ' ' :: seqc)
    (hdeb : ¬(code = st.last_rf_code ∧ sub32 now st.last_rf_time < RF_DEBOUNCE_MS))
    (hparse : rf_parse_ev1527 seqc = some (addr, data))
    (hactive : st.pairing_mode_active = false) (hpaired : st.is_paired = true)
    (haddr : String.mk addr = st.rf_address)
    (hbtn : button_relay data = some r) (hr : r < NUM_RELAYS)
    (hhold : ¬ sub32 now (st.last_toggle_time.getD r 0) < RF_HOLD_TIMEOUT_MS) :
    rf_code_received_callback saveOk now code st =
      ⟨{ st with last_rf_code := code, last_rf_time := now,
                 relay_states := relay_set st.relay_states r
                   (if relay_get st.relay_states r = 0 then 1 else 0),
                 last_toggle_time := st.last_toggle_time.set r now },
       [(r, if relay_get st.relay_states r = 0 then 1 else 0)]⟩ := by
  rw [rf_callback_reduce saveOk now st code seqc addr data hcode hdeb hparse]
  simp only [hactive, hpaired, haddr, hbtn, Nat.not_le.mpr hr]
  have hhold2 := Nat.not_lt.mp hhold
  simp only [List.getD_eq_getElem?_getD] at hhold2
  simp [hhold, hhold2]

/-- The hold-suppression path: as above but the last toggle was too
recent; only the debounce bookkeeping changes. -/
lemma rf_callback_hold (saveOk : Bool) (now : Nat) (st : RFState) (code : String)
    (seqc addr : List Char) (data r : Nat)
    (hcode : code.data = "ev1527".data ++ ' ' :: seqc)
    (hdeb : ¬(code = st.last_rf_code ∧ sub32 now st.last_rf_time < RF_DEBOUNCE_MS))
    (hparse : rf_parse_ev1527 seqc = some (addr, data))
    (hactive : st.pairing_mode_active = false) (hpaired : st.is_paired = true)
    (haddr : String.mk addr = st.rf_address)
    (hbtn : button_relay data = some r) (hr : r < NUM_RELAYS)
    (hhold : sub32 now (st.last_toggle_time.getD r 0) < RF_HOLD_TIMEOUT_MS) :
    rf_code_received_callback saveOk now code st =
      ⟨{ st with last_rf_code := code, last_rf_time := now }, []⟩ := by
  rw [rf_callback_reduce saveOk now st code seqc addr data hcode hdeb hparse]
  simp only [hactive, hpaired, haddr, hbtn, Nat.not_le.mpr hr]
  have hhold2 := hhold
  simp only [List.getD_eq_getElem?_getD] at hhold2
  simp [hhold2]

/-- Claim C3: while pairing mode is active (Learning), a decoded EV1527
event with a syntactically valid sequence whose persistence succeeds
leaves Learning with `is_paired` set and the 20-bit address stored, with
no relay call; afterwards, while Paired and not Learning, a decoded
EV1527 event whose address differs from the stored one changes neither
the stored address, nor `is_paired`, nor the hold state, nor the relay
states, and makes no relay call. -/
theorem c3_pairing_lifecycle :
    (∀ (st : RFState) (now : Nat) (code : String) (seqc addr : List Char) (data : Nat),
       st.pairing_mode_active = true →
       code.data = "ev1527".data ++ ' ' :: seqc →
       rf_parse_ev1527 seqc = some (addr, data) →
       ¬(code = st.last_rf_code ∧ sub32 now st.last_rf_time < RF_DEBOUNCE_MS) →
       (rf_code_received_callback true now code st).st.pairing_mode_active = false ∧
       (rf_code_received_callback true now code st).st.is_paired = true ∧
       (rf_code_received_callback true now code st).st.rf_address = String.mk addr ∧
       (rf_code_received_callback true now code st).calls = []) ∧
    (∀ (st : RFState) (saveOk : Bool) (now : Nat) (code : String)
       (seqc addr : List Char) (data : Nat),
       st.pairing_mode_active = false → st.is_paired = true →
       code.data = "ev1527".data ++ ' ' :: seqc →
       rf_parse_ev1527 seqc = some (addr, data) →
       String.mk addr ≠ st.rf_address →
       (rf_code_received_callback saveOk now code st).st.rf_address = st.rf_address ∧
       (rf_code_received_callback saveOk now code st).st.is_paired = true ∧
       (rf_code_received_callback saveOk now code st).st.pairing_mode_active = false ∧
       (rf_code_received_callback saveOk now code st).st.last_toggle_time
         = st.last_toggle_time ∧
       (rf_code_received_callback saveOk now code st).st.relay_states
         = st.relay_states ∧
       (rf_code_received_callback saveOk now code st).calls = []) := by
  constructor
  · intro st now code seqc addr data hact hcode hparse hdeb
    rw [rf_callback_reduce true now st code seqc addr data hcode hdeb hparse]
    simp [hact]
  · intro st saveOk now code seqc addr data hact hpaired hcode hparse haddr
    by_cases hdeb : code = st.last_rf_code ∧ sub32 now st.last_rf_time < RF_DEBOUNCE_MS
    · unfold rf_code_received_callback
      rw [if_pos hdeb]
      exact ⟨rfl, hpaired, hact, rfl, rfl, rfl⟩
    · rw [rf_callback_reduce saveOk now st code seqc addr data hcode hdeb hparse]
      simp [hact, hpaired, haddr]

/-- Witness for C3: a concrete learn while Learning and a concrete
mismatched address while Paired. -/
theorem c3_pairing_lifecycle_witness :
    ((rf_code_received_callback true 1000
        (String.mk ("ev1527".data ++ ' ' :: 's' :: (List.replicate 20 '0' ++ "1000".data)))
        ⟨"x", 0, [0, 0, 0, 0], true, false, "", [0, 0, 0, 0]⟩).st.is_paired = true ∧
     (rf_code_received_callback true 1000
        (String.mk ("ev1527".data ++ ' ' :: 's' :: (List.replicate 20 '0' ++ "1000".data)))
        ⟨"x", 0, [0, 0, 0, 0], true, false, "", [0, 0, 0, 0]⟩).st.rf_address
       = String.mk (List.replicate 20 '0')) ∧
    ((rf_code_received_callback false 1000
        (String.mk ("ev1527".data ++ ' ' :: 's' :: (List.replicate 20 '0' ++ "1000".data)))
        ⟨"x", 0, [0, 0, 0, 0], false, true, String.mk (List.replicate 20 '1'),
         [0, 0, 0, 0]⟩).st.rf_address = String.mk (List.replicate 20 '1') ∧
     (rf_code_received_callback false 1000
        (String.mk ("ev1527".data ++ ' ' :: 's' :: (List.replicate 20 '0' ++ "1000".data)))
        ⟨"x", 0, [0, 0, 0, 0], false, true, String.mk (List.replicate 20 '1'),
         [0, 0, 0, 0]⟩).calls = []) := by
  constructor
  · have h := c3_pairing_lifecycle.1
      ⟨"x", 0, [0, 0, 0, 0], true, false, "", [0, 0, 0, 0]⟩ 1000
      (String.mk ("ev1527".data ++ ' ' :: 's' :: (List.replicate 20 '0' ++ "1000".data)))
      ('s' :: (List.replicate 20 '0' ++ "1000".data)) (List.replicate 20 '0') 8
      rfl rfl (by decide) (by decide)
    exact ⟨h.2.1, h.2.2.1⟩
  · have h := c3_pairing_lifecycle.2
      ⟨"x", 0, [0, 0, 0, 0], false, true, String.mk (List.replicate 20 '1'),
       [0, 0, 0, 0]⟩ false 1000
      (String.mk ("ev1527".data ++ ' ' :: 's' :: (List.replicate 20 '0' ++ "1000".data)))
      ('s' :: (List.replicate 20 '0' ++ "1000".data)) (List.replicate 20 '0') 8
      rfl rfl rfl (by decide) (by decide)
    exact ⟨h.1, h.2.2.2.2.2⟩

/-- Claim C4: under the hold-detection rule of
`rf_code_received_callback`, two toggle-eligible events for relay `r`
less than `RF_HOLD_TIMEOUT_MS` (500 ms) apart produce exactly one
`relay_set` call (for the first); the second is discarded without
touching the per-relay last-toggle timestamp; a third toggle-eligible
event at least 500 ms after the first produces a second call. -/
theorem c4_hold_detection
    (saveOk : Bool) (st : RFState) (code : String) (seqc addr : List Char)
    (data r t1 t2 t3 : Nat)
    (hcode : code.data = "ev1527".data ++ ' ' :: seqc)
    (hparse : rf_parse_ev1527 seqc = some (addr, data))
    (hactive : st.pairing_mode_active = false) (hpaired : st.is_paired = true)
    (haddr : String.mk addr = st.rf_address)
    (hbtn : button_relay data = some r)
    (hlen : st.last_toggle_time.length = 4)
    (hdeb1 : ¬(code = st.last_rf_code ∧ sub32 t1 st.last_rf_time < RF_DEBOUNCE_MS))
    (hhold1 : RF_HOLD_TIMEOUT_MS ≤ sub32 t1 (st.last_toggle_time.getD r 0))
    (h12 : t1 + RF_DEBOUNCE_MS ≤ t2) (h21 : t2 < t1 + RF_HOLD_TIMEOUT_MS)
    (h23 : t2 + RF_DEBOUNCE_MS ≤ t3) (h13 : t1 + RF_HOLD_TIMEOUT_MS ≤ t3)
    (hbound : t3 < 4294967296) :
    (rf_code_received_callback saveOk t1 code st).calls
      = [(r, if relay_get st.relay_states r = 0 then 1 else 0)] ∧
    (rf_code_received_callback saveOk t2 code
        (rf_code_received_callback saveOk t1 code st).st).calls = [] ∧
    (rf_code_received_callback saveOk t2 code
        (rf_code_received_callback saveOk t1 code st).st).st.last_toggle_time
      = (rf_code_received_callback saveOk t1 code st).st.last_toggle_time ∧
    (rf_code_received_callback saveOk t3 code
        (rf_code_received_callback saveOk t2 code
          (rf_code_received_callback saveOk t1 code st).st).st).calls
      = [(r, if relay_get
              (rf_code_received_callback saveOk t2 code
                (rf_code_received_callback saveOk t1 code st).st).st.relay_states r
              = 0 then 1 else 0)] := by
  simp only [RF_DEBOUNCE_MS, RF_HOLD_TIMEOUT_MS] at h12 h21 h23 h13 hhold1
  have hr4 : r < NUM_RELAYS := button_relay_lt hbtn
  have e1 := rf_callback_toggle saveOk t1 st code seqc addr data r hcode hdeb1 hparse
    hactive hpaired haddr hbtn hr4 (Nat.not_lt.mpr hhold1)
  have hget1 : (st.last_toggle_time.set r t1).getD r 0 = t1 :=
    getD_set_self (by rw [hlen]; exact button_relay_lt hbtn)
  have hsub21 : sub32 t2 t1 = t2 - t1 := sub32_of_le (by omega) (by omega)
  have hsub31 : sub32 t3 t1 = t3 - t1 := sub32_of_le (by omega) (by omega)
  have hdeb2 : ¬(code = (rf_code_received_callback saveOk t1 code st).st.last_rf_code ∧
      sub32 t2 (rf_code_received_callback saveOk t1 code st).st.last_rf_time
        < RF_DEBOUNCE_MS) := by
    rw [e1]
    simp only [RF_DEBOUNCE_MS, hsub21]
    omega
  have e2 := rf_callback_hold saveOk t2 (rf_code_received_callback saveOk t1 code st).st
    code seqc addr data r hcode hdeb2 hparse
    (by rw [e1]; exact hactive) (by rw [e1]; exact hpaired)
    (by rw [e1]; exact haddr) hbtn hr4
    (by rw [e1]
        simp only [RF_HOLD_TIMEOUT_MS, hget1, hsub21]
        omega)
  have hsub32eq : sub32 t3 t2 = t3 - t2 := sub32_of_le (by omega) (by omega)
  have hdeb3 : ¬(code = (rf_code_received_callback saveOk t2 code
        (rf_code_received_callback saveOk t1 code st).st).st.last_rf_code ∧
      sub32 t3 (rf_code_received_callback saveOk t2 code
        (rf_code_received_callback saveOk t1 code st).st).st.last_rf_time
        < RF_DEBOUNCE_MS) := by
    rw [e2, e1]
    simp only [RF_DEBOUNCE_MS, hsub32eq]
    omega
  have e3 := rf_callback_toggle saveOk t3 (rf_code_received_callback saveOk t2 code
      (rf_code_received_callback saveOk t1 code st).st).st
    code seqc addr data r hcode hdeb3 hparse
    (by rw [e2, e1]; exact hactive) (by rw [e2, e1]; exact hpaired)
    (by rw [e2, e1]; exact haddr) hbtn hr4
    (by rw [e2, e1]
        simp only [RF_HOLD_TIMEOUT_MS, hget1, hsub31]
        omega)
  refine ⟨by rw [e1], by rw [e2], by rw [e2, e1], ?_⟩
  rw [e3]

/-- Witness for C4 at a concrete paired state and three event times
700, 1000, 1300. -/
theorem c4_hold_detection_witness :
    (rf_code_received_callback false 700
        (String.mk ("ev1527".data ++ ' ' :: 's' :: (List.replicate 20 '0' ++ "1000".data)))
        ⟨"x", 0, [0, 0, 0, 0], false, true, String.mk (List.replicate 20 '0'),
         [0, 0, 0, 0]⟩).calls = [(0, 1)] ∧
    (rf_code_received_callback false 1000
        (String.mk ("ev1527".data ++ ' ' :: 's' :: (List.replicate 20 '0' ++ "1000".data)))
        (rf_code_received_callback false 700
          (String.mk ("ev1527".data ++ ' ' :: 's' :: (List.replicate 20 '0' ++ "1000".data)))
          ⟨"x", 0, [0, 0, 0, 0], false, true, String.mk (List.replicate 20 '0'),
           [0, 0, 0, 0]⟩).st).calls = [] := by
  have h := c4_hold_detection false
    ⟨"x", 0, [0, 0, 0, 0], false, true, String.mk (List.replicate 20 '0'), [0, 0, 0, 0]⟩
    (String.mk ("ev1527".data ++ ' ' :: 's' :: (List.replicate 20 '0' ++ "1000".data)))
    ('s' :: (List.replicate 20 '0' ++ "1000".data)) (List.replicate 20 '0') 8 0
    700 1000 1300
    rfl (by decide) rfl rfl rfl (by decide) rfl (by decide) (by decide)
    (by decide) (by decide) (by decide) (by decide) (by decide)
  refine ⟨?_, h.2.1⟩
  rw [h.1]
  decide

lemma set_getD_self {α : Type} (d : α) :
    ∀ (l : List α) (k : Nat), k < l.length → l.set k (l.getD k d) = l := by
  intro l
  induction l with
  | nil => intro k hk; simp at hk
  | cons x t ih =>
    intro k hk
    cases k with
    | zero => rfl
    | succ k =>
      simp only [List.set_cons_succ, List.getD_cons_succ]
      rw [ih k (by simpa using hk)]

lemma protStatic_seq (p : SignalProtocol) (s : List Char) :
    protStatic { p with seq := s } = protStatic p := rfl

lemma protStatic_reset_codes (p : SignalProtocol) :
    protStatic (reset_codes p) = protStatic p := by
  unfold protStatic reset_codes
  simp only [List.map_map]
  rfl

lemma protStatic_recalc (p : SignalProtocol) (b : Nat) :
    protStatic (recalc_protocol p b) = protStatic p := by
  unfold protStatic recalc_protocol
  simp only [List.map_map]
  rfl

lemma protStatic_reset (p : SignalProtocol) :
    protStatic (reset_protocol p) = protStatic p := by
  unfold reset_protocol
  rw [protStatic_recalc, protStatic_reset_codes, protStatic_seq]

lemma protStatic_setCode {p : SignalProtocol} {k : Nat} {c1 : SignalCode}
    (h : codeStatic c1 = codeStatic (p.codes.getD k default)) (hk : k < p.codes.length) :
    protStatic (setCode p k c1) = protStatic p := by
  unfold protStatic setCode
  simp only [List.map_set, h]
  have : (p.codes.map codeStatic).getD k (codeStatic default)
      = codeStatic (p.codes.getD k default) := by
    rw [List.getD_eq_getElem _ _ (by simpa using hk),
      List.getD_eq_getElem _ _ hk, List.getElem_map]
  rw [← this, set_getD_self _ _ _ (by simpa using hk)]

lemma reset_protocol_eq_of_static {p q : SignalProtocol}
    (h : protStatic p = protStatic q) : reset_protocol p = reset_protocol q := by
  simp only [protStatic, Prod.mk.injEq] at h
  obtain ⟨h1, h2, h3, h4, h5, h6, h7⟩ := h
  have hexpand : ∀ r : SignalProtocol, reset_protocol r =
      { name := r.name, min_code_len := r.min_code_len, max_code_len := r.max_code_len,
        tolerance := r.tolerance, send_repeat := r.send_repeat, base_time := r.base_time,
        codes := r.codes.map (fun c =>
          recalcCode r.tolerance r.base_time (resetCode c)), seq := [] } := by
    intro r
    unfold reset_protocol recalc_protocol reset_codes
    simp [List.map_map]
  rw [hexpand p, hexpand q, h1, h2, h3, h4, h5, h6]
  have hfun : ∀ tol b, (fun c => recalcCode tol b (resetCode c)) =
      (fun s : Nat × Char × List Nat =>
        ({ type := s.1, name := s.2.1, time := s.2.2,
           min_time := s.2.2.map (fun r => b * r - (b * r * tol) / 100),
           max_time := s.2.2.map (fun r => b * r + (b * r * tol) / 100),
           total := 0, cnt := 0, valid := true } : SignalCode)) ∘ codeStatic := by
    intro tol b
    funext c
    rfl
  simp only [hfun, ← List.map_map, h7]

lemma finishCode_static {p : SignalProtocol} {k : Nat} {c1 : SignalCode}
    (h : codeStatic c1 = codeStatic (p.codes.getD k default))
    (hk : k < p.codes.length) :
    protStatic (finishCode p k c1).1 = protStatic p := by
  have hp1 : protStatic (setCode p k c1) = protStatic p := protStatic_setCode h hk
  simp only [finishCode]
  split_ifs <;>
    simp only [protStatic_reset, protStatic_reset_codes, protStatic_seq,
      protStatic_recalc, hp1]

lemma parseLoop_static (d : Nat) :
    ∀ (fuel : Nat) (p : SignalProtocol) (k : Nat) (av : Bool),
      protStatic (parseLoop d fuel p k av).prot = protStatic p := by
  intro fuel
  induction fuel with
  | zero => intro p k av; rfl
  | succ n ih =>
    intro p k av
    simp only [parseLoop]
    split_ifs with hk hv h1 h2 h3 h4 h5
    · rw [ih]
      exact protStatic_setCode rfl hk
    · rw [ih]
      exact protStatic_setCode rfl hk
    · show protStatic (parseLoop d n (reset_protocol p) k av).prot = protStatic p
      rw [ih, protStatic_reset]
    · rw [ih]
      exact protStatic_setCode rfl hk
    · show protStatic (finishCode p k _).1 = protStatic p
      exact finishCode_static rfl hk
    · rw [ih]
      exact protStatic_setCode rfl hk
    · exact ih p (k+1) av
    · rfl

lemma parseLoop_event_none (d : Nat) :
    ∀ (fuel : Nat) (p : SignalProtocol) (k : Nat) (av : Bool),
      (parseLoop d fuel p k av).anyValid = false →
      (parseLoop d fuel p k av).event = none := by
  intro fuel
  induction fuel with
  | zero => intro p k av _; rfl
  | succ n ih =>
    intro p k av h
    simp only [parseLoop, List.getD_eq_getElem?_getD] at h ⊢
    split_ifs at h ⊢ <;>
      first
        | rfl
        | exact ih _ _ _ h

lemma mem_drop_of_mem_drop_succ {α : Type} {l : List α} {k : Nat} {c : α}
    (h : c ∈ l.drop (k + 1)) : c ∈ l.drop k := by
  have : l.drop (k + 1) = List.drop 1 (l.drop k) := by
    rw [List.drop_drop]
  rw [this] at h
  exact List.mem_of_mem_drop h

lemma getD_mem_drop {l : List SignalCode} {k : Nat} (hk : k < l.length) :
    l.getD k default ∈ l.drop k := by
  rw [List.getD_eq_getElem _ _ hk, List.drop_eq_getElem_cons hk]
  exact List.mem_cons_self _ _

lemma drop_succ_set {α : Type} (l : List α) (k : Nat) (c : α) :
    (l.set k c).drop (k + 1) = l.drop (k + 1) := by
  rw [List.drop_set, if_pos (Nat.lt_succ_self k)]

/-- If no code from position `k` on has `cnt = 1`, the retry branch can
never fire. -/
lemma parseLoop_retries_zero (d : Nat) :
    ∀ (fuel : Nat) (p : SignalProtocol) (k : Nat) (av : Bool),
      (∀ c ∈ p.codes.drop k, c.cnt ≠ 1) →
      (parseLoop d fuel p k av).retries = 0 := by
  intro fuel
  induction fuel with
  | zero => intro p k av _; rfl
  | succ n ih =>
    intro p k av hno
    have hstep : ∀ c1 : SignalCode,
        ∀ c ∈ (setCode p k c1).codes.drop (k + 1), c.cnt ≠ 1 := by
      intro c1 c hc
      refine hno c (mem_drop_of_mem_drop_succ ?_)
      simpa [setCode, drop_succ_set] using hc
    have hnext : ∀ c ∈ p.codes.drop (k + 1), c.cnt ≠ 1 := fun c hc =>
      hno c (mem_drop_of_mem_drop_succ hc)
    simp only [parseLoop]
    split_ifs with hk hv h1 h2 h3 h4 h5
    · exact ih _ _ _ (hstep _)
    · exact ih _ _ _ (hstep _)
    · exact absurd h4.1 (hno _ (getD_mem_drop hk))
    · exact ih _ _ _ (hstep _)
    · rfl
    · exact ih _ _ _ (hstep _)
    · exact ih _ _ _ hnext
    · rfl

lemma reset_protocol_cnt (p : SignalProtocol) :
    ∀ c ∈ (reset_protocol p).codes, c.cnt = 0 := by
  intro c hc
  simp only [reset_protocol, recalc_protocol, reset_codes, List.map_map,
    List.mem_map] at hc
  obtain ⟨c0, _, rfl⟩ := hc
  rfl

/-- The retry branch fires at most once per duration: after the reset
every `cnt` is 0, so the `i == 1` condition cannot recur. -/
lemma parseLoop_retries_le_one (d : Nat) :
    ∀ (fuel : Nat) (p : SignalProtocol) (k : Nat) (av : Bool),
      (parseLoop d fuel p k av).retries ≤ 1 := by
  intro fuel
  induction fuel with
  | zero => intro p k av; exact Nat.zero_le 1
  | succ n ih =>
    intro p k av
    simp only [parseLoop]
    split_ifs with hk hv h1 h2 h3 h4 h5
    · exact ih _ _ _
    · exact ih _ _ _
    · have hz : (parseLoop d n (reset_protocol p) k av).retries = 0 :=
        parseLoop_retries_zero d n (reset_protocol p) k av
          (fun c hc => by
            rw [reset_protocol_cnt p c (List.mem_of_mem_drop hc)]
            omega)
      simp [hz]
    · exact ih _ _ _
    · exact Nat.zero_le 1
    · exact ih _ _ _
    · exact ih _ _ _
    · exact Nat.zero_le 1

/-! ## Claim theorems C5–C8 -/

/-- Claim C6: whenever a code of role exactly `End` (the only End-role
shape used by the protocol table) completes all its timing slots while
the sequence length (after appending it) is still below the protocol's
minimum code length, the partial sequence is discarded: no callback
payload is produced and the protocol session is fully reset. -/
theorem c6_end_fragment_discard
    (p : SignalProtocol) (d k fuel : Nat) (av : Bool)
    (hk : k < p.codes.length)
    (hvalid : (p.codes.getD k default).valid = true)
    (htype : (p.codes.getD k default).type = CODE_TYPE_END)
    (hseq : 0 < p.seq.length)
    (hwin : (p.codes.getD k default).min_time.getD (p.codes.getD k default).cnt 0 ≤ d
          ∧ d ≤ (p.codes.getD k default).max_time.getD (p.codes.getD k default).cnt 0)
    (hcomp : (p.codes.getD k default).cnt + 1 = (p.codes.getD k default).time.length)
    (hshort : p.seq.length + 1 < p.min_code_len) :
    parseLoop d (fuel + 1) p k av = ⟨reset_protocol p, true, none, 0⟩ := by
  have hfin : finishCode p k
      { p.codes.getD k default with
        valid := true,
        total := (p.codes.getD k default).total + d,
        cnt := (p.codes.getD k default).cnt + 1 } = (reset_protocol p, none) := by
    simp only [finishCode]
    rw [if_neg (show ¬((setCode p k _).seq.length = 0) from by
      simp only [setCode]
      omega)]
    rw [if_pos (show _ ∧ _ from ⟨htype, by
      simp only [setCode, reset_codes, List.length_append, List.length_singleton]
      omega⟩)]
    refine Prod.ext ?_ rfl
    apply reset_protocol_eq_of_static
    rw [protStatic_reset_codes, protStatic_seq]
    exact protStatic_setCode rfl hk
  simp only [parseLoop]
  rw [if_pos hk, if_pos hvalid,
    if_neg (show ¬(p.seq.length = 0 ∧ _) from fun hcon => by omega),
    if_neg (show ¬(0 < p.seq.length ∧
        (p.codes.getD k default).type &&& CODE_TYPE_ANY = 0) from fun hcon => by
      rw [htype] at hcon
      exact absurd hcon.2 (by decide)),
    if_neg (show ¬(d < (p.codes.getD k default).min_time.getD
          (p.codes.getD k default).cnt 0 ∨
        (p.codes.getD k default).max_time.getD (p.codes.getD k default).cnt 0 < d)
      from by omega),
    if_pos (show (p.codes.getD k default).cnt + 1 = _ from hcomp)]
  rw [hfin]

/-- Witness for C6: the loaded sc5 protocol after `'0' ++ start-of-'S'`,
completing the End code `'S'` at sequence length 2 < 13. -/
theorem c6_end_fragment_discard_witness :
    parseLoop 12400 5
      ([400, 1200, 400, 1200, 400].foldl (fun q t => (parse_protocol q t).1)
        (signal_parser_load protocol_sc5)) 3 false
    = ⟨reset_protocol ([400, 1200, 400, 1200, 400].foldl
        (fun q t => (parse_protocol q t).1) (signal_parser_load protocol_sc5)),
       true, none, 0⟩ :=
  c6_end_fragment_discard _ 12400 3 4 false (by decide) (by decide) (by decide)
    (by decide) (by decide) (by decide) (by decide)

/-- Claim C8: when the very first code of a sequence completes all its
timing slots, the effective base time becomes `c.total / Σ c.time` (the
accumulated measured duration over the sum of the nominal ratios, in
integer division), and every code's windows are recomputed in exact
integer arithmetic as `min = t - (t*tolerance)/100`,
`max = t + (t*tolerance)/100` with `t = newBase * ratio`. -/
theorem c8_base_time_recalibration
    (p : SignalProtocol) (d k fuel : Nat) (av : Bool)
    (hk : k < p.codes.length)
    (hvalid : (p.codes.getD k default).valid = true)
    (hseq : p.seq.length = 0)
    (hstart : (p.codes.getD k default).type &&& CODE_TYPE_START ≠ 0)
    (hnotend : (p.codes.getD k default).type &&& CODE_TYPE_END = 0)
    (hwin : (p.codes.getD k default).min_time.getD (p.codes.getD k default).cnt 0 ≤ d
          ∧ d ≤ (p.codes.getD k default).max_time.getD (p.codes.getD k default).cnt 0)
    (hcomp : (p.codes.getD k default).cnt + 1 = (p.codes.getD k default).time.length)
    (hmax : 1 ≠ p.max_code_len) :
    parseLoop d (fuel + 1) p k av =
      ⟨reset_codes
         { recalc_protocol
             (setCode p k
               { p.codes.getD k default with
                 valid := true,
                 total := (p.codes.getD k default).total + d,
                 cnt := (p.codes.getD k default).cnt + 1 })
             (((p.codes.getD k default).total + d) / (p.codes.getD k default).time.sum)
           with
           seq := p.seq ++ [(p.codes.getD k default).name] },
       true, none, 0⟩ ∧
    (∀ cc ∈ (parseLoop d (fuel + 1) p k av).prot.codes,
      cc.min_time = cc.time.map (fun ratio =>
        (((p.codes.getD k default).total + d) / (p.codes.getD k default).time.sum) * ratio
        - ((((p.codes.getD k default).total + d) / (p.codes.getD k default).time.sum) * ratio
            * p.tolerance) / 100) ∧
      cc.max_time = cc.time.map (fun ratio =>
        (((p.codes.getD k default).total + d) / (p.codes.getD k default).time.sum) * ratio
        + ((((p.codes.getD k default).total + d) / (p.codes.getD k default).time.sum) * ratio
            * p.tolerance) / 100)) := by
  have hstep : parseLoop d (fuel + 1) p k av =
      ⟨reset_codes
         { recalc_protocol
             (setCode p k
               { p.codes.getD k default with
                 valid := true,
                 total := (p.codes.getD k default).total + d,
                 cnt := (p.codes.getD k default).cnt + 1 })
             (((p.codes.getD k default).total + d) / (p.codes.getD k default).time.sum)
           with
           seq := p.seq ++ [(p.codes.getD k default).name] },
       true, none, 0⟩ := by
    have hfin : finishCode p k
        { p.codes.getD k default with
          valid := true,
          total := (p.codes.getD k default).total + d,
          cnt := (p.codes.getD k default).cnt + 1 } =
        (reset_codes
           { recalc_protocol
               (setCode p k
                 { p.codes.getD k default with
                   valid := true,
                   total := (p.codes.getD k default).total + d,
                   cnt := (p.codes.getD k default).cnt + 1 })
               (((p.codes.getD k default).total + d) / (p.codes.getD k default).time.sum)
             with
             seq := p.seq ++ [(p.codes.getD k default).name] }, none) := by
      simp only [finishCode]
      rw [if_pos (show (setCode p k _).seq.length = 0 from by
        simpa only [setCode] using hseq)]
      rw [if_neg (show ¬((_ : SignalCode).type = CODE_TYPE_END ∧ _) from fun hcon => by
        have h4 : (p.codes.getD k default).type = CODE_TYPE_END := hcon.1
        rw [h4] at hnotend
        exact absurd hnotend (by decide))]
      rw [if_neg (show ¬((_ : SignalCode).type &&& CODE_TYPE_END ≠ 0 ∧ _)
          from fun hcon => hcon.1 hnotend)]
      rw [if_neg (show ¬(_ = _) from by
        simp only [reset_codes, recalc_protocol, setCode, List.length_append,
          List.length_singleton]
        omega)]
      rfl
    simp only [parseLoop]
    rw [if_pos hk, if_pos hvalid,
      if_neg (show ¬(p.seq.length = 0 ∧
          (p.codes.getD k default).type &&& CODE_TYPE_START = 0)
        from fun hcon => hstart hcon.2),
      if_neg (show ¬(0 < p.seq.length ∧ _) from fun hcon => by omega),
      if_neg (show ¬(d < (p.codes.getD k default).min_time.getD
            (p.codes.getD k default).cnt 0 ∨
          (p.codes.getD k default).max_time.getD (p.codes.getD k default).cnt 0 < d)
        from by omega),
      if_pos (show (p.codes.getD k default).cnt + 1 = _ from hcomp)]
    rw [hfin]
  refine ⟨hstep, ?_⟩
  intro cc hcc
  rw [hstep] at hcc
  simp only [reset_codes, recalc_protocol, List.map_map, List.mem_map] at hcc
  obtain ⟨c0, _, rfl⟩ := hcc
  exact ⟨rfl, rfl⟩

/-- Witness for C8: the loaded ev1527 protocol with the start code `'s'`
half-matched by a 320µs pulse, completed by a 9920µs gap; the new base
time is (320+9920)/32 = 320 and the recomputed window of the first slot
of `'s'` is [240, 400]. -/
theorem c8_base_time_recalibration_witness :
    parseLoop 9920 8 ((parse_protocol ev1527_loaded 320).1) 0 false =
      ⟨reset_codes
         { recalc_protocol
             (setCode ((parse_protocol ev1527_loaded 320).1) 0
               { ((parse_protocol ev1527_loaded 320).1).codes.getD 0 default with
                 valid := true,
                 total := (((parse_protocol ev1527_loaded 320).1).codes.getD 0 default).total
                   + 9920,
                 cnt := (((parse_protocol ev1527_loaded 320).1).codes.getD 0 default).cnt + 1 })
             (((((parse_protocol ev1527_loaded 320).1).codes.getD 0 default).total + 9920)
               / (((parse_protocol ev1527_loaded 320).1).codes.getD 0 default).time.sum)
           with
           seq := ((parse_protocol ev1527_loaded 320).1).seq
             ++ [(((parse_protocol ev1527_loaded 320).1).codes.getD 0 default).name] },
       true, none, 0⟩ ∧
    ((parseLoop 9920 8 ((parse_protocol ev1527_loaded 320).1) 0 false).prot.codes.getD 0
        default).min_time = [240, 7440] := by
  have h := c8_base_time_recalibration ((parse_protocol ev1527_loaded 320).1) 9920 0 7 false
    (by decide) (by decide) (by decide) (by decide) (by decide) (by decide) (by decide)
    (by decide)
  refine ⟨h.1, ?_⟩
  rw [h.1]
  decide

/-- Claim C5 counterexample: at the freshly loaded ev1527 protocol and
duration 10000 the **first**-slot (index 0) check of the candidate Start
code `'s'` fails while the session is empty, yet no
reset-and-re-evaluate of the duration takes place (`retries = 0`): the
duration is simply consumed and the no-survivor reset applies. -/
theorem c5_counterexample :
    (ev1527_loaded.seq.length = 0 ∧
     (ev1527_loaded.codes.getD 0 default).valid = true ∧
     (ev1527_loaded.codes.getD 0 default).type &&& CODE_TYPE_START ≠ 0 ∧
     (ev1527_loaded.codes.getD 0 default).cnt = 0 ∧
     (ev1527_loaded.codes.getD 0 default).max_time.getD 0 0 < 10000) ∧
    (parseLoop 10000 8 ev1527_loaded 0 false).retries = 0 ∧
    parse_protocol ev1527_loaded 10000 = (reset_protocol ev1527_loaded, none) := by
  decide

/-- Claim C5 (amended): the retry fires when the timing check at slot
index 1 (the **second** slot, `i == 1`) of a candidate Start code fails
while the session is empty: the whole protocol is reset and the same
duration is re-evaluated from the same code position; and the retry
branch runs at most once per duration — never a loop. -/
theorem c5_retry_as_new_start :
    (∀ (p : SignalProtocol) (d fuel k : Nat) (av : Bool),
       k < p.codes.length →
       (p.codes.getD k default).valid = true →
       p.seq.length = 0 →
       (p.codes.getD k default).type &&& CODE_TYPE_START ≠ 0 →
       (p.codes.getD k default).cnt = 1 →
       (d < (p.codes.getD k default).min_time.getD 1 0 ∨
        (p.codes.getD k default).max_time.getD 1 0 < d) →
       parseLoop d (fuel + 1) p k av =
         { parseLoop d fuel (reset_protocol p) k av with
           retries := (parseLoop d fuel (reset_protocol p) k av).retries + 1 }) ∧
    (∀ (p : SignalProtocol) (d : Nat),
       (parseLoop d (2 * p.codes.length + 2) p 0 false).retries ≤ 1) := by
  constructor
  · intro p d fuel k av hk hvalid hseq hstart hcnt hfail
    simp only [parseLoop]
    rw [if_pos hk, if_pos hvalid,
      if_neg (show ¬(p.seq.length = 0 ∧
          (p.codes.getD k default).type &&& CODE_TYPE_START = 0)
        from fun hcon => hstart hcon.2),
      if_neg (show ¬(0 < p.seq.length ∧ _) from fun hcon => by omega),
      if_pos (show (d < (p.codes.getD k default).min_time.getD
            (p.codes.getD k default).cnt 0 ∨
          (p.codes.getD k default).max_time.getD (p.codes.getD k default).cnt 0 < d)
        from by rw [hcnt]; exact hfail),
      if_pos (show (p.codes.getD k default).cnt = 1 ∧ p.seq.length = 0
        from ⟨hcnt, hseq⟩)]
  · intro p d
    exact parseLoop_retries_le_one d _ p 0 false

/-- Witness for C5 (amended): after one 320µs pulse the ev1527 start
code has `cnt = 1`; a second 320µs pulse fails slot 1 and is retried,
once, against the reset protocol. -/
theorem c5_retry_as_new_start_witness :
    parseLoop 320 8 ((parse_protocol ev1527_loaded 320).1) 0 false =
      { parseLoop 320 7 (reset_protocol ((parse_protocol ev1527_loaded 320).1)) 0 false with
        retries := (parseLoop 320 7
          (reset_protocol ((parse_protocol ev1527_loaded 320).1)) 0 false).retries + 1 } ∧
    (parseLoop 320 8 ((parse_protocol ev1527_loaded 320).1) 0 false).retries ≤ 1 :=
  ⟨c5_retry_as_new_start.1 ((parse_protocol ev1527_loaded 320).1) 320 7 0 false
      (by decide) (by decide) (by decide) (by decide) (by decide) (by decide),
   c5_retry_as_new_start.2 ((parse_protocol ev1527_loaded 320).1) 320⟩

set_option maxRecDepth 4000 in
/-- Claim C7: if after checking a duration no code of the protocol
survived (`any_valid` false), `parse_protocol` resets the whole session
to the freshly loaded state and emits nothing; concretely, one
out-of-tolerance duration (50µs) in the middle of an ev1527 stream
resets the session back to the loaded state with no event, and a
subsequent fully valid stream still decodes to exactly one correct
event. -/
theorem c7_resynchronization :
    (∀ (p : SignalProtocol) (d : Nat),
       (parseLoop d (2 * p.codes.length + 2) p 0 false).anyValid = false →
       parse_protocol p d = (reset_protocol p, none)) ∧
    feed [ev1527_loaded] [320, 9920, 320, 960, 50] = ([ev1527_loaded], []) ∧
    feed [ev1527_loaded] ([320, 9920, 320, 960, 50] ++ ev1527_demo_stream)
      = ([ev1527_loaded],
         [String.mk ("ev1527".data ++ ' ' :: 's' :: ev1527_demo_bits)]) := by
  refine ⟨?_, by decide, by decide⟩
  intro p d hav
  simp only [parse_protocol]
  rw [hav]
  simp only [Bool.false_eq_true, if_false]
  refine Prod.ext ?_ (parseLoop_event_none d _ p 0 false hav)
  show reset_protocol (parseLoop d (2 * p.codes.length + 2) p 0 false).prot
      = reset_protocol p
  exact reset_protocol_eq_of_static (parseLoop_static d _ p 0 false)

/-- Witness for C7: a fresh ev1527 session fed a 7µs glitch has no
surviving code, and parse resets it with no event. -/
theorem c7_resynchronization_witness :
    parse_protocol ev1527_loaded 7 = (reset_protocol ev1527_loaded, none) :=
  c7_resynchronization.1 ev1527_loaded 7 (by decide)

/-! ## Single-iteration lemmas for the parse loop -/

lemma parseLoop_done (d : Nat) (p : SignalProtocol) (k : Nat) (av : Bool)
    (h : ¬ k < p.codes.length) :
    ∀ fuel, parseLoop d fuel p k av = ⟨p, av, none, 0⟩ := by
  intro fuel
  cases fuel with
  | zero => rfl
  | succ n =>
    simp only [parseLoop]
    rw [if_neg h]

lemma parseLoop_step_invalid (d fuel : Nat) (p : SignalProtocol) (k : Nat) (av : Bool)
    (hk : k < p.codes.length) (hv : (p.codes.getD k default).valid = false) :
    parseLoop d (fuel + 1) p k av = parseLoop d fuel p (k + 1) av := by
  simp only [parseLoop]
  rw [if_pos hk, if_neg (by rw [hv]; exact Bool.false_ne_true)]

lemma parseLoop_step_notstart (d fuel : Nat) (p : SignalProtocol) (k : Nat) (av : Bool)
    (hk : k < p.codes.length) (hv : (p.codes.getD k default).valid = true)
    (hs0 : p.seq.length = 0)
    (ht : (p.codes.getD k default).type &&& CODE_TYPE_START = 0) :
    parseLoop d (fuel + 1) p k av =
      parseLoop d fuel (setCode p k { p.codes.getD k default with valid := false })
        (k + 1) av := by
  simp only [parseLoop]
  rw [if_pos hk, if_pos hv, if_pos ⟨hs0, ht⟩]

lemma parseLoop_step_notdata (d fuel : Nat) (p : SignalProtocol) (k : Nat) (av : Bool)
    (hk : k < p.codes.length) (hv : (p.codes.getD k default).valid = true)
    (hs : 0 < p.seq.length)
    (ht : (p.codes.getD k default).type &&& CODE_TYPE_ANY = 0) :
    parseLoop d (fuel + 1) p k av =
      parseLoop d fuel (setCode p k { p.codes.getD k default with valid := false })
        (k + 1) av := by
  simp only [parseLoop]
  rw [if_pos hk, if_pos hv,
    if_neg (show ¬(p.seq.length = 0 ∧ _) from fun hcon => by omega),
    if_pos ⟨hs, ht⟩]

lemma parseLoop_step_nofit (d fuel : Nat) (p : SignalProtocol) (k : Nat) (av : Bool)
    (hk : k < p.codes.length) (hv : (p.codes.getD k default).valid = true)
    (h1 : ¬(p.seq.length = 0 ∧ (p.codes.getD k default).type &&& CODE_TYPE_START = 0))
    (h2 : ¬(0 < p.seq.length ∧ (p.codes.getD k default).type &&& CODE_TYPE_ANY = 0))
    (h3 : d < (p.codes.getD k default).min_time.getD (p.codes.getD k default).cnt 0 ∨
          (p.codes.getD k default).max_time.getD (p.codes.getD k default).cnt 0 < d)
    (h4 : ¬((p.codes.getD k default).cnt = 1 ∧ p.seq.length = 0)) :
    parseLoop d (fuel + 1) p k av =
      parseLoop d fuel (setCode p k { p.codes.getD k default with valid := false })
        (k + 1) av := by
  simp only [parseLoop]
  rw [if_pos hk, if_pos hv, if_neg h1, if_neg h2, if_pos h3, if_neg h4]

lemma parseLoop_step_match (d fuel : Nat) (p : SignalProtocol) (k : Nat) (av : Bool)
    (hk : k < p.codes.length) (hv : (p.codes.getD k default).valid = true)
    (h1 : ¬(p.seq.length = 0 ∧ (p.codes.getD k default).type &&& CODE_TYPE_START = 0))
    (h2 : ¬(0 < p.seq.length ∧ (p.codes.getD k default).type &&& CODE_TYPE_ANY = 0))
    (h3 : ¬(d < (p.codes.getD k default).min_time.getD (p.codes.getD k default).cnt 0 ∨
            (p.codes.getD k default).max_time.getD (p.codes.getD k default).cnt 0 < d))
    (h5 : ¬((p.codes.getD k default).cnt + 1 = (p.codes.getD k default).time.length)) :
    parseLoop d (fuel + 1) p k av =
      parseLoop d fuel
        (setCode p k
          { p.codes.getD k default with
            valid := true,
            total := (p.codes.getD k default).total + d,
            cnt := (p.codes.getD k default).cnt + 1 })
        (k + 1) true := by
  simp only [parseLoop]
  rw [if_pos hk, if_pos hv, if_neg h1, if_neg h2, if_neg h3,
    if_neg (show ¬((p.codes.getD k default).cnt + 1 = _) from h5)]

lemma parseLoop_step_complete (d fuel : Nat) (p : SignalProtocol) (k : Nat) (av : Bool)
    (hk : k < p.codes.length) (hv : (p.codes.getD k default).valid = true)
    (h1 : ¬(p.seq.length = 0 ∧ (p.codes.getD k default).type &&& CODE_TYPE_START = 0))
    (h2 : ¬(0 < p.seq.length ∧ (p.codes.getD k default).type &&& CODE_TYPE_ANY = 0))
    (h3 : ¬(d < (p.codes.getD k default).min_time.getD (p.codes.getD k default).cnt 0 ∨
            (p.codes.getD k default).max_time.getD (p.codes.getD k default).cnt 0 < d))
    (h5 : (p.codes.getD k default).cnt + 1 = (p.codes.getD k default).time.length) :
    parseLoop d (fuel + 1) p k av =
      ⟨(finishCode p k
          { p.codes.getD k default with
            valid := true,
            total := (p.codes.getD k default).total + d,
            cnt := (p.codes.getD k default).cnt + 1 }).1,
       true,
       (finishCode p k
          { p.codes.getD k default with
            valid := true,
            total := (p.codes.getD k default).total + d,
            cnt := (p.codes.getD k default).cnt + 1 }).2,
       0⟩ := by
  simp only [parseLoop]
  rw [if_pos hk, if_pos hv, if_neg h1, if_neg h2, if_neg h3,
    if_pos (show (p.codes.getD k default).cnt + 1 = _ from h5)]

lemma evState_codes (b : Nat) (s : List Char) :
    (evState b s).codes = [evCodeS b, evCode0 b, evCode1 b] := rfl

lemma evWindow_disjoint (b x : Nat) (hb : 240 ≤ b)
    (h1 : evWindow b 1 x) (h3 : evWindow b 3 x) : False := by
  unfold evWindow at h1 h3
  omega

/-- First duration of a '0' bit: `'s'` is invalidated (not a data code),
`'0'` advances to slot 1, `'1'` is invalidated (disjoint window). -/
lemma ev_loop_x0 (b : Nat) (s : List Char) (x : Nat) (fuel : Nat)
    (hb : 240 ≤ b) (hs : 0 < s.length) (hx : evWindow b 1 x) :
    parseLoop x (fuel + 4) (evState b s) 0 false = ⟨evA0 b s x, true, none, 0⟩ := by
  have s1 : parseLoop x (fuel + 4) (evState b s) 0 false
      = parseLoop x (fuel + 3)
          { evState b s with
            codes := [{ evCodeS b with valid := false }, evCode0 b, evCode1 b] }
          1 false := by
    rw [show fuel + 4 = (fuel + 3) + 1 from rfl,
      parseLoop_step_notdata x (fuel + 3) (evState b s) 0 false
        (show (0:Nat) < 3 by norm_num) rfl hs
        (show (1:Nat) &&& CODE_TYPE_ANY = 0 by decide)]
    rfl
  have s2 : parseLoop x (fuel + 3)
        { evState b s with
          codes := [{ evCodeS b with valid := false }, evCode0 b, evCode1 b] }
        1 false
      = parseLoop x (fuel + 2)
          { evState b s with
            codes := [{ evCodeS b with valid := false },
                      { evCode0 b with cnt := 1, total := x },
                      evCode1 b] }
          2 true := by
    rw [show fuel + 3 = (fuel + 2) + 1 from rfl,
      parseLoop_step_match x (fuel + 2)
        { evState b s with
          codes := [{ evCodeS b with valid := false }, evCode0 b, evCode1 b] }
        1 false
        (show (1:Nat) < 3 by norm_num) rfl
        (fun hcon => absurd (show s.length = 0 from hcon.1) (by omega))
        (fun hcon => absurd hcon.2 (show ¬((2:Nat) &&& CODE_TYPE_ANY = 0) by decide))
        (show ¬(x < b * 1 - (b * 1 * 25) / 100 ∨ b * 1 + (b * 1 * 25) / 100 < x) from by
          unfold evWindow at hx
          omega)
        (show ¬((0:Nat) + 1 = 2) by decide)]
    simp [setCode, evCodeS, evCode0, evCode1, recalcCode, mkCode]
  have s3 : parseLoop x (fuel + 2)
        { evState b s with
          codes := [{ evCodeS b with valid := false },
                    { evCode0 b with cnt := 1, total := x },
                    evCode1 b] }
        2 true
      = parseLoop x (fuel + 1) (evA0 b s x) 3 true := by
    rw [show fuel + 2 = (fuel + 1) + 1 from rfl,
      parseLoop_step_nofit x (fuel + 1)
        { evState b s with
          codes := [{ evCodeS b with valid := false },
                    { evCode0 b with cnt := 1, total := x },
                    evCode1 b] }
        2 true
        (show (2:Nat) < 3 by norm_num) rfl
        (fun hcon => absurd (show s.length = 0 from hcon.1) (by omega))
        (fun hcon => absurd hcon.2 (show ¬((2:Nat) &&& CODE_TYPE_ANY = 0) by decide))
        (show x < b * 3 - (b * 3 * 25) / 100 ∨ b * 3 + (b * 3 * 25) / 100 < x from
          Or.inl (by unfold evWindow at hx; omega))
        (fun hcon => absurd (show s.length = 0 from hcon.2) (by omega))]
    simp [setCode, evA0, evCodeS, evCode0, evCode1, recalcCode, mkCode]
  have s4 := parseLoop_done x (evA0 b s x) 3 true
    (show ¬((3:Nat) < 3) by norm_num) (fuel + 1)
  exact s1.trans (s2.trans (s3.trans s4))

/-- First duration of a '1' bit: `'s'` and `'0'` are invalidated, `'1'`
advances to slot 1. -/
lemma ev_loop_x1 (b : Nat) (s : List Char) (x : Nat) (fuel : Nat)
    (hb : 240 ≤ b) (hs : 0 < s.length) (hx : evWindow b 3 x) :
    parseLoop x (fuel + 4) (evState b s) 0 false = ⟨evA1 b s x, true, none, 0⟩ := by
  have s1 : parseLoop x (fuel + 4) (evState b s) 0 false
      = parseLoop x (fuel + 3)
          { evState b s with
            codes := [{ evCodeS b with valid := false }, evCode0 b, evCode1 b] }
          1 false := by
    rw [show fuel + 4 = (fuel + 3) + 1 from rfl,
      parseLoop_step_notdata x (fuel + 3) (evState b s) 0 false
        (show (0:Nat) < 3 by norm_num) rfl hs
        (show (1:Nat) &&& CODE_TYPE_ANY = 0 by decide)]
    rfl
  have s2 : parseLoop x (fuel + 3)
        { evState b s with
          codes := [{ evCodeS b with valid := false }, evCode0 b, evCode1 b] }
        1 false
      = parseLoop x (fuel + 2)
          { evState b s with
            codes := [{ evCodeS b with valid := false },
                      { evCode0 b with valid := false },
                      evCode1 b] }
          2 false := by
    rw [show fuel + 3 = (fuel + 2) + 1 from rfl,
      parseLoop_step_nofit x (fuel + 2)
        { evState b s with
          codes := [{ evCodeS b with valid := false }, evCode0 b, evCode1 b] }
        1 false
        (show (1:Nat) < 3 by norm_num) rfl
        (fun hcon => absurd (show s.length = 0 from hcon.1) (by omega))
        (fun hcon => absurd hcon.2 (show ¬((2:Nat) &&& CODE_TYPE_ANY = 0) by decide))
        (show x < b * 1 - (b * 1 * 25) / 100 ∨ b * 1 + (b * 1 * 25) / 100 < x from
          Or.inr (by unfold evWindow at hx; omega))
        (fun hcon => absurd (show s.length = 0 from hcon.2) (by omega))]
    rfl
  have s3 : parseLoop x (fuel + 2)
        { evState b s with
          codes := [{ evCodeS b with valid := false },
                    { evCode0 b with valid := false },
                    evCode1 b] }
        2 false
      = parseLoop x (fuel + 1) (evA1 b s x) 3 true := by
    rw [show fuel + 2 = (fuel + 1) + 1 from rfl,
      parseLoop_step_match x (fuel + 1)
        { evState b s with
          codes := [{ evCodeS b with valid := false },
                    { evCode0 b with valid := false },
                    evCode1 b] }
        2 false
        (show (2:Nat) < 3 by norm_num) rfl
        (fun hcon => absurd (show s.length = 0 from hcon.1) (by omega))
        (fun hcon => absurd hcon.2 (show ¬((2:Nat) &&& CODE_TYPE_ANY = 0) by decide))
        (show ¬(x < b * 3 - (b * 3 * 25) / 100 ∨ b * 3 + (b * 3 * 25) / 100 < x) from by
          unfold evWindow at hx
          omega)
        (show ¬((0:Nat) + 1 = 2) by decide)]
    simp [setCode, evA1, evCodeS, evCode0, evCode1, recalcCode, mkCode]
  have s4 := parseLoop_done x (evA1 b s x) 3 true
    (show ¬((3:Nat) < 3) by norm_num) (fuel + 1)
  exact s1.trans (s2.trans (s3.trans s4))

/-- Second duration of a '0' bit, sequence still short: the code `'0'`
completes, its character is appended, all codes reset. -/
lemma ev_loop_y0_mid (b : Nat) (s : List Char) (x y : Nat) (fuel : Nat)
    (hs : 0 < s.length) (hlen : s.length < 24) (hy : evWindow b 3 y) :
    parseLoop y (fuel + 2) (evA0 b s x) 0 false
      = ⟨evState b (s ++ ['0']), true, none, 0⟩ := by
  have s1 : parseLoop y (fuel + 2) (evA0 b s x) 0 false
      = parseLoop y (fuel + 1) (evA0 b s x) 1 false := by
    rw [show fuel + 2 = (fuel + 1) + 1 from rfl,
      parseLoop_step_invalid y (fuel + 1) (evA0 b s x) 0 false
        (show (0:Nat) < 3 by norm_num) rfl]
  have hfin : finishCode (evA0 b s x) 1
      { (evA0 b s x).codes.getD 1 default with
        valid := true,
        total := ((evA0 b s x).codes.getD 1 default).total + y,
        cnt := ((evA0 b s x).codes.getD 1 default).cnt + 1 }
      = (evState b (s ++ ['0']), none) := by
    simp only [finishCode]
    rw [if_neg (show ¬((setCode (evA0 b s x) 1 _).seq.length = 0) from
        fun hcon => absurd (show s.length = 0 from hcon) (by omega))]
    rw [if_neg (fun hcon => absurd hcon.1 (show ¬((2:Nat) = CODE_TYPE_END) by decide))]
    rw [if_neg (fun hcon => absurd hcon.1
        (show ¬((2:Nat) &&& CODE_TYPE_END ≠ 0) by decide))]
    rw [if_neg (show ¬(_ = _) from fun hcon => by
      have h25 : (s ++ ['0']).length = 25 := hcon
      simp at h25
      omega)]
    simp [reset_codes, setCode, evA0, evState, recalc_protocol, protocol_ev1527,
      evCodeS, evCode0, evCode1, recalcCode, mkCode, resetCode]
  have s2 : parseLoop y (fuel + 1) (evA0 b s x) 1 false
      = ⟨evState b (s ++ ['0']), true, none, 0⟩ := by
    cases fuel with
    | zero =>
      rw [parseLoop_step_complete y 0 (evA0 b s x) 1 false
        (show (1:Nat) < 3 by norm_num) rfl
        (fun hcon => absurd (show s.length = 0 from hcon.1) (by omega))
        (fun hcon => absurd hcon.2 (show ¬((2:Nat) &&& CODE_TYPE_ANY = 0) by decide))
        (show ¬(y < b * 3 - (b * 3 * 25) / 100 ∨ b * 3 + (b * 3 * 25) / 100 < y) from by
          unfold evWindow at hy
          omega)
        (show (1:Nat) + 1 = 2 by decide), hfin]
    | succ n =>
      rw [parseLoop_step_complete y (n + 1) (evA0 b s x) 1 false
        (show (1:Nat) < 3 by norm_num) rfl
        (fun hcon => absurd (show s.length = 0 from hcon.1) (by omega))
        (fun hcon => absurd hcon.2 (show ¬((2:Nat) &&& CODE_TYPE_ANY = 0) by decide))
        (show ¬(y < b * 3 - (b * 3 * 25) / 100 ∨ b * 3 + (b * 3 * 25) / 100 < y) from by
          unfold evWindow at hy
          omega)
        (show (1:Nat) + 1 = 2 by decide), hfin]
  exact s1.trans s2

/-- Second duration of the 25th code `'0'`: the sequence reaches the
maximum length, the callback fires and the session resets. -/
lemma ev_loop_y0_fin (b : Nat) (s : List Char) (x y : Nat) (fuel : Nat)
    (hs : 0 < s.length) (hlen : s.length = 24) (hy : evWindow b 3 y) :
    parseLoop y (fuel + 2) (evA0 b s x) 0 false
      = ⟨ev1527_loaded, true,
         some (String.mk ("ev1527".data ++ ' ' :: (s ++ ['0']))), 0⟩ := by
  have s1 : parseLoop y (fuel + 2) (evA0 b s x) 0 false
      = parseLoop y (fuel + 1) (evA0 b s x) 1 false := by
    rw [show fuel + 2 = (fuel + 1) + 1 from rfl,
      parseLoop_step_invalid y (fuel + 1) (evA0 b s x) 0 false
        (show (0:Nat) < 3 by norm_num) rfl]
  have hfin : finishCode (evA0 b s x) 1
      { (evA0 b s x).codes.getD 1 default with
        valid := true,
        total := ((evA0 b s x).codes.getD 1 default).total + y,
        cnt := ((evA0 b s x).codes.getD 1 default).cnt + 1 }
      = (ev1527_loaded, some (String.mk ("ev1527".data ++ ' ' :: (s ++ ['0'])))) := by
    simp only [finishCode]
    rw [if_neg (show ¬((setCode (evA0 b s x) 1 _).seq.length = 0) from
        fun hcon => absurd (show s.length = 0 from hcon) (by omega))]
    rw [if_neg (fun hcon => absurd hcon.1 (show ¬((2:Nat) = CODE_TYPE_END) by decide))]
    rw [if_neg (fun hcon => absurd hcon.1
        (show ¬((2:Nat) &&& CODE_TYPE_END ≠ 0) by decide))]
    rw [if_pos (show (_ = _) from by
      show (s ++ ['0']).length = 25
      simp [hlen])]
    refine Prod.ext ?_ rfl
    exact reset_protocol_eq_of_static rfl
  have s2 : parseLoop y (fuel + 1) (evA0 b s x) 1 false
      = ⟨ev1527_loaded, true,
         some (String.mk ("ev1527".data ++ ' ' :: (s ++ ['0']))), 0⟩ := by
    cases fuel with
    | zero =>
      rw [parseLoop_step_complete y 0 (evA0 b s x) 1 false
        (show (1:Nat) < 3 by norm_num) rfl
        (fun hcon => absurd (show s.length = 0 from hcon.1) (by omega))
        (fun hcon => absurd hcon.2 (show ¬((2:Nat) &&& CODE_TYPE_ANY = 0) by decide))
        (show ¬(y < b * 3 - (b * 3 * 25) / 100 ∨ b * 3 + (b * 3 * 25) / 100 < y) from by
          unfold evWindow at hy
          omega)
        (show (1:Nat) + 1 = 2 by decide), hfin]
    | succ n =>
      rw [parseLoop_step_complete y (n + 1) (evA0 b s x) 1 false
        (show (1:Nat) < 3 by norm_num) rfl
        (fun hcon => absurd (show s.length = 0 from hcon.1) (by omega))
        (fun hcon => absurd hcon.2 (show ¬((2:Nat) &&& CODE_TYPE_ANY = 0) by decide))
        (show ¬(y < b * 3 - (b * 3 * 25) / 100 ∨ b * 3 + (b * 3 * 25) / 100 < y) from by
          unfold evWindow at hy
          omega)
        (show (1:Nat) + 1 = 2 by decide), hfin]
  exact s1.trans s2

/-- Second duration of a '1' bit, sequence still short. -/
lemma ev_loop_y1_mid (b : Nat) (s : List Char) (x y : Nat) (fuel : Nat)
    (hs : 0 < s.length) (hlen : s.length < 24) (hy : evWindow b 1 y) :
    parseLoop y (fuel + 3) (evA1 b s x) 0 false
      = ⟨evState b (s ++ ['1']), true, none, 0⟩ := by
  have s1 : parseLoop y (fuel + 3) (evA1 b s x) 0 false
      = parseLoop y (fuel + 2) (evA1 b s x) 1 false := by
    rw [show fuel + 3 = (fuel + 2) + 1 from rfl,
      parseLoop_step_invalid y (fuel + 2) (evA1 b s x) 0 false
        (show (0:Nat) < 3 by norm_num) rfl]
  have s2 : parseLoop y (fuel + 2) (evA1 b s x) 1 false
      = parseLoop y (fuel + 1) (evA1 b s x) 2 false := by
    rw [show fuel + 2 = (fuel + 1) + 1 from rfl,
      parseLoop_step_invalid y (fuel + 1) (evA1 b s x) 1 false
        (show (1:Nat) < 3 by norm_num) rfl]
  have hfin : finishCode (evA1 b s x) 2
      { (evA1 b s x).codes.getD 2 default with
        valid := true,
        total := ((evA1 b s x).codes.getD 2 default).total + y,
        cnt := ((evA1 b s x).codes.getD 2 default).cnt + 1 }
      = (evState b (s ++ ['1']), none) := by
    simp only [finishCode]
    rw [if_neg (show ¬((setCode (evA1 b s x) 2 _).seq.length = 0) from
        fun hcon => absurd (show s.length = 0 from hcon) (by omega))]
    rw [if_neg (fun hcon => absurd hcon.1 (show ¬((2:Nat) = CODE_TYPE_END) by decide))]
    rw [if_neg (fun hcon => absurd hcon.1
        (show ¬((2:Nat) &&& CODE_TYPE_END ≠ 0) by decide))]
    rw [if_neg (show ¬(_ = _) from fun hcon => by
      have h25 : (s ++ ['1']).length = 25 := hcon
      simp at h25
      omega)]
    simp [reset_codes, setCode, evA1, evState, recalc_protocol, protocol_ev1527,
      evCodeS, evCode0, evCode1, recalcCode, mkCode, resetCode]
  have s3 : parseLoop y (fuel + 1) (evA1 b s x) 2 false
      = ⟨evState b (s ++ ['1']), true, none, 0⟩ := by
    cases fuel with
    | zero =>
      rw [parseLoop_step_complete y 0 (evA1 b s x) 2 false
        (show (2:Nat) < 3 by norm_num) rfl
        (fun hcon => absurd (show s.length = 0 from hcon.1) (by omega))
        (fun hcon => absurd hcon.2 (show ¬((2:Nat) &&& CODE_TYPE_ANY = 0) by decide))
        (show ¬(y < b * 1 - (b * 1 * 25) / 100 ∨ b * 1 + (b * 1 * 25) / 100 < y) from by
          unfold evWindow at hy
          omega)
        (show (1:Nat) + 1 = 2 by decide), hfin]
    | succ n =>
      rw [parseLoop_step_complete y (n + 1) (evA1 b s x) 2 false
        (show (2:Nat) < 3 by norm_num) rfl
        (fun hcon => absurd (show s.length = 0 from hcon.1) (by omega))
        (fun hcon => absurd hcon.2 (show ¬((2:Nat) &&& CODE_TYPE_ANY = 0) by decide))
        (show ¬(y < b * 1 - (b * 1 * 25) / 100 ∨ b * 1 + (b * 1 * 25) / 100 < y) from by
          unfold evWindow at hy
          omega)
        (show (1:Nat) + 1 = 2 by decide), hfin]
  exact s1.trans (s2.trans s3)

/-- Second duration of the 25th code `'1'`: callback and reset. -/
lemma ev_loop_y1_fin (b : Nat) (s : List Char) (x y : Nat) (fuel : Nat)
    (hs : 0 < s.length) (hlen : s.length = 24) (hy : evWindow b 1 y) :
    parseLoop y (fuel + 3) (evA1 b s x) 0 false
      = ⟨ev1527_loaded, true,
         some (String.mk ("ev1527".data ++ ' ' :: (s ++ ['1']))), 0⟩ := by
  have s1 : parseLoop y (fuel + 3) (evA1 b s x) 0 false
      = parseLoop y (fuel + 2) (evA1 b s x) 1 false := by
    rw [show fuel + 3 = (fuel + 2) + 1 from rfl,
      parseLoop_step_invalid y (fuel + 2) (evA1 b s x) 0 false
        (show (0:Nat) < 3 by norm_num) rfl]
  have s2 : parseLoop y (fuel + 2) (evA1 b s x) 1 false
      = parseLoop y (fuel + 1) (evA1 b s x) 2 false := by
    rw [show fuel + 2 = (fuel + 1) + 1 from rfl,
      parseLoop_step_invalid y (fuel + 1) (evA1 b s x) 1 false
        (show (1:Nat) < 3 by norm_num) rfl]
  have hfin : finishCode (evA1 b s x) 2
      { (evA1 b s x).codes.getD 2 default with
        valid := true,
        total := ((evA1 b s x).codes.getD 2 default).total + y,
        cnt := ((evA1 b s x).codes.getD 2 default).cnt + 1 }
      = (ev1527_loaded, some (String.mk ("ev1527".data ++ ' ' :: (s ++ ['1'])))) := by
    simp only [finishCode]
    rw [if_neg (show ¬((setCode (evA1 b s x) 2 _).seq.length = 0) from
        fun hcon => absurd (show s.length = 0 from hcon) (by omega))]
    rw [if_neg (fun hcon => absurd hcon.1 (show ¬((2:Nat) = CODE_TYPE_END) by decide))]
    rw [if_neg (fun hcon => absurd hcon.1
        (show ¬((2:Nat) &&& CODE_TYPE_END ≠ 0) by decide))]
    rw [if_pos (show (_ = _) from by
      show (s ++ ['1']).length = 25
      simp [hlen])]
    refine Prod.ext ?_ rfl
    exact reset_protocol_eq_of_static rfl
  have s3 : parseLoop y (fuel + 1) (evA1 b s x) 2 false
      = ⟨ev1527_loaded, true,
         some (String.mk ("ev1527".data ++ ' ' :: (s ++ ['1']))), 0⟩ := by
    cases fuel with
    | zero =>
      rw [parseLoop_step_complete y 0 (evA1 b s x) 2 false
        (show (2:Nat) < 3 by norm_num) rfl
        (fun hcon => absurd (show s.length = 0 from hcon.1) (by omega))
        (fun hcon => absurd hcon.2 (show ¬((2:Nat) &&& CODE_TYPE_ANY = 0) by decide))
        (show ¬(y < b * 1 - (b * 1 * 25) / 100 ∨ b * 1 + (b * 1 * 25) / 100 < y) from by
          unfold evWindow at hy
          omega)
        (show (1:Nat) + 1 = 2 by decide), hfin]
    | succ n =>
      rw [parseLoop_step_complete y (n + 1) (evA1 b s x) 2 false
        (show (2:Nat) < 3 by norm_num) rfl
        (fun hcon => absurd (show s.length = 0 from hcon.1) (by omega))
        (fun hcon => absurd hcon.2 (show ¬((2:Nat) &&& CODE_TYPE_ANY = 0) by decide))
        (show ¬(y < b * 1 - (b * 1 * 25) / 100 ∨ b * 1 + (b * 1 * 25) / 100 < y) from by
          unfold evWindow at hy
          omega)
        (show (1:Nat) + 1 = 2 by decide), hfin]
  exact s1.trans (s2.trans s3)

/-- The first start pulse at the freshly loaded protocol: `'s'` advances
to slot 1, the data codes are invalidated (not Start codes). -/
lemma ev_loop_d0 (d0 : Nat) (fuel : Nat) (h0 : evWindow 320 1 d0) :
    parseLoop d0 (fuel + 4) (evState 320 []) 0 false = ⟨evS1 d0, true, none, 0⟩ := by
  have s1 : parseLoop d0 (fuel + 4) (evState 320 []) 0 false
      = parseLoop d0 (fuel + 3)
          { evState 320 [] with
            codes := [{ evCodeS 320 with cnt := 1, total := d0 },
                      evCode0 320, evCode1 320] }
          1 true := by
    rw [show fuel + 4 = (fuel + 3) + 1 from rfl,
      parseLoop_step_match d0 (fuel + 3) (evState 320 []) 0 false
        (show (0:Nat) < 3 by norm_num) rfl
        (fun hcon => absurd hcon.2 (show ¬((1:Nat) &&& CODE_TYPE_START = 0) by decide))
        (fun hcon => absurd hcon.1 (show ¬((0:Nat) < 0) by norm_num))
        (show ¬(d0 < 320 * 1 - (320 * 1 * 25) / 100 ∨
            320 * 1 + (320 * 1 * 25) / 100 < d0) from by
          unfold evWindow at h0
          omega)
        (show ¬((0:Nat) + 1 = 2) by decide)]
    simp [setCode, evCodeS, evCode0, evCode1, recalcCode, mkCode, evState,
      recalc_protocol, protocol_ev1527]
  have s2 : parseLoop d0 (fuel + 3)
        { evState 320 [] with
          codes := [{ evCodeS 320 with cnt := 1, total := d0 },
                    evCode0 320, evCode1 320] }
        1 true
      = parseLoop d0 (fuel + 2)
          { evState 320 [] with
            codes := [{ evCodeS 320 with cnt := 1, total := d0 },
                      { evCode0 320 with valid := false }, evCode1 320] }
          2 true := by
    rw [show fuel + 3 = (fuel + 2) + 1 from rfl,
      parseLoop_step_notstart d0 (fuel + 2)
        { evState 320 [] with
          codes := [{ evCodeS 320 with cnt := 1, total := d0 },
                    evCode0 320, evCode1 320] }
        1 true
        (show (1:Nat) < 3 by norm_num) rfl rfl
        (show (2:Nat) &&& CODE_TYPE_START = 0 by decide)]
    rfl
  have s3 : parseLoop d0 (fuel + 2)
        { evState 320 [] with
          codes := [{ evCodeS 320 with cnt := 1, total := d0 },
                    { evCode0 320 with valid := false }, evCode1 320] }
        2 true
      = parseLoop d0 (fuel + 1) (evS1 d0) 3 true := by
    rw [show fuel + 2 = (fuel + 1) + 1 from rfl,
      parseLoop_step_notstart d0 (fuel + 1)
        { evState 320 [] with
          codes := [{ evCodeS 320 with cnt := 1, total := d0 },
                    { evCode0 320 with valid := false }, evCode1 320] }
        2 true
        (show (2:Nat) < 3 by norm_num) rfl rfl
        (show (2:Nat) &&& CODE_TYPE_START = 0 by decide)]
    rfl
  have s4 := parseLoop_done d0 (evS1 d0) 3 true
    (show ¬((3:Nat) < 3) by norm_num) (fuel + 1)
  exact s1.trans (s2.trans (s3.trans s4))

/-- The second start duration: `'s'` completes, the base time is
recalibrated to `(d0 + d1) / 32` and the session continues with
sequence `"s"`. -/
lemma ev_loop_d1 (d0 d1 : Nat) (fuel : Nat) (h1 : evWindow 320 31 d1) :
    parseLoop d1 (fuel + 1) (evS1 d0) 0 false
      = ⟨evState ((d0 + d1) / 32) ['s'], true, none, 0⟩ := by
  have hfin : finishCode (evS1 d0) 0
      { (evS1 d0).codes.getD 0 default with
        valid := true,
        total := ((evS1 d0).codes.getD 0 default).total + d1,
        cnt := ((evS1 d0).codes.getD 0 default).cnt + 1 }
      = (evState ((d0 + d1) / 32) ['s'], none) := by
    simp only [finishCode]
    rw [if_pos (show ((setCode (evS1 d0) 0 _).seq.length = 0) from rfl)]
    rw [if_neg (fun hcon => absurd hcon.1 (show ¬((1:Nat) = CODE_TYPE_END) by decide))]
    rw [if_neg (fun hcon => absurd hcon.1
        (show ¬((1:Nat) &&& CODE_TYPE_END ≠ 0) by decide))]
    rw [if_neg (show ¬(_ = _) from fun hcon => by
      exact absurd (show (([] : List Char) ++ ['s']).length = 25 from hcon) (by decide))]
    simp [reset_codes, setCode, recalc_protocol, evS1, evState, protocol_ev1527,
      evCodeS, evCode0, evCode1, recalcCode, mkCode, resetCode]
  cases fuel with
  | zero =>
    rw [parseLoop_step_complete d1 0 (evS1 d0) 0 false
      (show (0:Nat) < 3 by norm_num) rfl
      (fun hcon => absurd hcon.2 (show ¬((1:Nat) &&& CODE_TYPE_START = 0) by decide))
      (fun hcon => absurd hcon.1 (show ¬((0:Nat) < 0) by norm_num))
      (show ¬(d1 < 320 * 31 - (320 * 31 * 25) / 100 ∨
          320 * 31 + (320 * 31 * 25) / 100 < d1) from by
        unfold evWindow at h1
        omega)
      (show (1:Nat) + 1 = 2 by decide), hfin]
  | succ n =>
    rw [parseLoop_step_complete d1 (n + 1) (evS1 d0) 0 false
      (show (0:Nat) < 3 by norm_num) rfl
      (fun hcon => absurd hcon.2 (show ¬((1:Nat) &&& CODE_TYPE_START = 0) by decide))
      (fun hcon => absurd hcon.1 (show ¬((0:Nat) < 0) by norm_num))
      (show ¬(d1 < 320 * 31 - (320 * 31 * 25) / 100 ∨
          320 * 31 + (320 * 31 * 25) / 100 < d1) from by
        unfold evWindow at h1
        omega)
      (show (1:Nat) + 1 = 2 by decide), hfin]

/-- Bridge from the loop to `parse_protocol` for the 3-code ev1527
table. -/
lemma parse_protocol_eq (p q : SignalProtocol) (d : Nat) (ev : Option String)
    (hlen : p.codes.length = 3)
    (h : parseLoop d 8 p 0 false = ⟨q, true, ev, 0⟩) :
    parse_protocol p d = (q, ev) := by
  have h8 : 2 * p.codes.length + 2 = 8 := by rw [hlen]
  simp only [parse_protocol, h8, h]
  simp

lemma ev_parse_x0 (b : Nat) (s : List Char) (x : Nat)
    (hb : 240 ≤ b) (hs : 0 < s.length) (hx : evWindow b 1 x) :
    parse_protocol (evState b s) x = (evA0 b s x, none) :=
  parse_protocol_eq _ _ _ _ rfl (ev_loop_x0 b s x 4 hb hs hx)

lemma ev_parse_x1 (b : Nat) (s : List Char) (x : Nat)
    (hb : 240 ≤ b) (hs : 0 < s.length) (hx : evWindow b 3 x) :
    parse_protocol (evState b s) x = (evA1 b s x, none) :=
  parse_protocol_eq _ _ _ _ rfl (ev_loop_x1 b s x 4 hb hs hx)

lemma ev_parse_y0_mid (b : Nat) (s : List Char) (x y : Nat)
    (hs : 0 < s.length) (hlen : s.length < 24) (hy : evWindow b 3 y) :
    parse_protocol (evA0 b s x) y = (evState b (s ++ ['0']), none) :=
  parse_protocol_eq _ _ _ _ rfl (ev_loop_y0_mid b s x y 6 hs hlen hy)

lemma ev_parse_y0_fin (b : Nat) (s : List Char) (x y : Nat)
    (hs : 0 < s.length) (hlen : s.length = 24) (hy : evWindow b 3 y) :
    parse_protocol (evA0 b s x) y
      = (ev1527_loaded, some (String.mk ("ev1527".data ++ ' ' :: (s ++ ['0'])))) :=
  parse_protocol_eq _ _ _ _ rfl (ev_loop_y0_fin b s x y 6 hs hlen hy)

lemma ev_parse_y1_mid (b : Nat) (s : List Char) (x y : Nat)
    (hs : 0 < s.length) (hlen : s.length < 24) (hy : evWindow b 1 y) :
    parse_protocol (evA1 b s x) y = (evState b (s ++ ['1']), none) :=
  parse_protocol_eq _ _ _ _ rfl (ev_loop_y1_mid b s x y 5 hs hlen hy)

lemma ev_parse_y1_fin (b : Nat) (s : List Char) (x y : Nat)
    (hs : 0 < s.length) (hlen : s.length = 24) (hy : evWindow b 1 y) :
    parse_protocol (evA1 b s x) y
      = (ev1527_loaded, some (String.mk ("ev1527".data ++ ' ' :: (s ++ ['1'])))) :=
  parse_protocol_eq _ _ _ _ rfl (ev_loop_y1_fin b s x y 5 hs hlen hy)

lemma ev_parse_d0 (d0 : Nat) (h0 : evWindow 320 1 d0) :
    parse_protocol (evState 320 []) d0 = (evS1 d0, none) :=
  parse_protocol_eq _ _ _ _ rfl (ev_loop_d0 d0 4 h0)

lemma ev_parse_d1 (d0 d1 : Nat) (h1 : evWindow 320 31 d1) :
    parse_protocol (evS1 d0) d1 = (evState ((d0 + d1) / 32) ['s'], none) :=
  parse_protocol_eq _ _ _ _ rfl (ev_loop_d1 d0 d1 7 h1)

lemma feedProt_cons (p : SignalProtocol) (d : Nat) (ds : List Nat) :
    feedProt p (d :: ds)
      = ((feedProt (parse_protocol p d).1 ds).1,
         (parse_protocol p d).2.toList ++ (feedProt (parse_protocol p d).1 ds).2) := rfl

lemma feed_aux_single :
    ∀ (ds : List Nat) (p : SignalProtocol) (es : List String),
      ds.foldl (fun acc d =>
          let r := signal_parser_parse acc.1 d
          (r.1, acc.2 ++ r.2)) ([p], es)
        = ([(feedProt p ds).1], es ++ (feedProt p ds).2) := by
  intro ds
  induction ds with
  | nil => intro p es; simp [feedProt]
  | cons d ds ih =>
    intro p es
    rw [List.foldl_cons]
    have hparse : signal_parser_parse [p] d
        = ([(parse_protocol p d).1], (parse_protocol p d).2.toList) := by
      simp only [signal_parser_parse, List.map_cons, List.map_nil,
        List.filterMap_cons, List.filterMap_nil]
      cases h2 : (parse_protocol p d).2 <;> simp [Option.toList]
    show List.foldl _
        ((signal_parser_parse [p] d).1, es ++ (signal_parser_parse [p] d).2) ds = _
    rw [hparse, ih, feedProt_cons]
    simp

/-- `feed` with a single loaded protocol is exactly `feedProt`. -/
lemma feed_single (p : SignalProtocol) (ds : List Nat) :
    feed [p] ds = ([(feedProt p ds).1], (feedProt p ds).2) := by
  have h := feed_aux_single ds p []
  simpa [feed] using h

lemma bitChar_of_fits0 {b : Nat} {pr : Nat × Nat} (h : fitsBit0 b pr) :
    bitChar b pr = '0' := by
  unfold bitChar
  rw [if_pos h]

lemma bitChar_of_fits1 {b : Nat} {pr : Nat × Nat} (hb : 240 ≤ b)
    (h : fitsBit1 b pr) : bitChar b pr = '1' := by
  unfold bitChar
  rw [if_neg (fun hcon => evWindow_disjoint b pr.1 hb hcon.1 h.1)]

/-- The bit-pair stream after a recalibrated start: every in-window pair
appends its bit; when the sequence reaches 25 codes the callback fires
once with `"ev1527 <seq>"` and the session resets. -/
lemma ev_stream (b : Nat) (hb : 240 ≤ b) :
    ∀ (pairs : List (Nat × Nat)) (s : List Char),
      0 < s.length → s.length ≤ 24 → s.length + pairs.length = 25 →
      (∀ pr ∈ pairs, bitFits b pr) →
      feedProt (evState b s) (flatPairs pairs)
        = (ev1527_loaded,
           [String.mk ("ev1527".data ++ ' ' :: (s ++ pairs.map (bitChar b)))]) := by
  intro pairs
  induction pairs with
  | nil =>
    intro s hs hle hsum _
    simp at hsum
    omega
  | cons pr rest ih =>
    intro s hs hle hsum hfit
    have hfpr : bitFits b pr := hfit pr (List.mem_cons_self pr rest)
    have hrest : ∀ q ∈ rest, bitFits b q := fun q hq =>
      hfit q (List.mem_cons_of_mem pr hq)
    simp only [List.length_cons] at hsum
    rw [show flatPairs (pr :: rest) = pr.1 :: pr.2 :: flatPairs rest from rfl]
    cases hfpr with
    | inl h0 =>
      have hx := h0.1
      have hy := h0.2
      rw [feedProt_cons, ev_parse_x0 b s pr.1 hb hs hx]
      cases rest with
      | nil =>
        have h24 : s.length = 24 := by simp only [List.length_nil] at hsum; omega
        rw [feedProt_cons, ev_parse_y0_fin b s pr.1 pr.2 hs h24 hy]
        simp [feedProt, bitChar_of_fits0 h0]
      | cons q rest2 =>
        simp only [List.length_cons] at hsum
        have hlt : s.length < 24 := by omega
        rw [feedProt_cons, ev_parse_y0_mid b s pr.1 pr.2 hs hlt hy]
        have := ih (s ++ ['0']) (by simp) (by simp; omega) (by simp; omega)
          (fun q2 hq2 => hrest q2 hq2)
        simp only [this]
        simp [bitChar_of_fits0 h0]
    | inr h1 =>
      have hx := h1.1
      have hy := h1.2
      rw [feedProt_cons, ev_parse_x1 b s pr.1 hb hs hx]
      cases rest with
      | nil =>
        have h24 : s.length = 24 := by simp only [List.length_nil] at hsum; omega
        rw [feedProt_cons, ev_parse_y1_fin b s pr.1 pr.2 hs h24 hy]
        simp [feedProt, bitChar_of_fits1 hb h1]
      | cons q rest2 =>
        simp only [List.length_cons] at hsum
        have hlt : s.length < 24 := by omega
        rw [feedProt_cons, ev_parse_y1_mid b s pr.1 pr.2 hs hlt hy]
        have := ih (s ++ ['1']) (by simp) (by simp; omega) (by simp; omega)
          (fun q2 hq2 => hrest q2 hq2)
        simp only [this]
        simp [bitChar_of_fits1 hb h1]

/-- Claim C2: with the ev1527 protocol loaded (base time 320, tolerance
25), any 25-duration-pair stream — a start pair inside the `'s'` windows
(ratios 1, 31 at base 320) followed by 24 bit pairs each inside the
windows recomputed from the recalibrated base `(d0+d1)/32` — produces
exactly one callback event, equal to `"ev1527 s<24 bits>"`, and leaves
the session reset. -/
theorem c2_ev1527_end_to_end (d0 d1 : Nat) (pairs : List (Nat × Nat))
    (h0 : evWindow 320 1 d0) (h1 : evWindow 320 31 d1)
    (hplen : pairs.length = 24)
    (hfit : ∀ pr ∈ pairs, bitFits ((d0 + d1) / 32) pr) :
    feed [ev1527_loaded] (d0 :: d1 :: flatPairs pairs)
      = ([ev1527_loaded],
         [String.mk ("ev1527".data ++ ' ' :: 's' ::
            pairs.map (bitChar ((d0 + d1) / 32)))]) := by
  have hb : 240 ≤ (d0 + d1) / 32 := by
    unfold evWindow at h0 h1
    omega
  rw [feed_single]
  have e0 : parse_protocol (evState 320 []) d0 = (evS1 d0, none) := ev_parse_d0 d0 h0
  have e1 : parse_protocol (evS1 d0) d1
      = (evState ((d0 + d1) / 32) ['s'], none) := ev_parse_d1 d0 d1 h1
  have hstr := ev_stream ((d0 + d1) / 32) hb pairs ['s']
    (by norm_num) (by norm_num) (by simp [hplen]) hfit
  rw [show feedProt ev1527_loaded (d0 :: d1 :: flatPairs pairs)
      = feedProt (evState 320 []) (d0 :: d1 :: flatPairs pairs) from rfl,
    feedProt_cons, e0]
  simp only [feedProt_cons, e1, hstr]
  simp

/-- Witness for C2 at the nominal-midpoint stream for the demo payload. -/
theorem c2_ev1527_end_to_end_witness :
    feed [ev1527_loaded]
      (320 :: 9920 :: flatPairs (ev1527_demo_bits.map
        (fun c => if c = '0' then (320, 960) else (960, 320))))
      = ([ev1527_loaded],
         [String.mk ("ev1527".data ++ ' ' :: 's' ::
            (ev1527_demo_bits.map
              (fun c => if c = '0' then (320, 960) else (960, 320))).map
              (bitChar ((320 + 9920) / 32)))]) :=
  c2_ev1527_end_to_end 320 9920
    (ev1527_demo_bits.map (fun c => if c = '0' then (320, 960) else (960, 320)))
    (by decide) (by decide) (by decide) (by decide)

/-! ## Round trip (claim C1)

`rf_receiver_init` loads exactly one protocol (`protocol_ev1527`), so a
round trip over the loaded table is a round trip for ev1527 alone.  The
composed midpoints `(min+max)/2` are exactly `base*ratio` (the window is
symmetric in integer arithmetic), so the bit-pair machinery above applies
at the table base 320. -/

lemma compose_ev1527 (seqc : List Char) (len : Nat) :
    signal_parser_compose [ev1527_loaded] ("ev1527".data ++ ' ' :: seqc) len
      = composeCodes ev1527_loaded seqc len := by
  have hmem : ' ' ∈ "ev1527".data ++ ' ' :: seqc := by simp
  have htk := takeWhile_until_space "ev1527".data seqc (by decide)
  have hdp := dropWhile_until_space "ev1527".data seqc (by decide)
  rw [signal_parser_compose, if_pos hmem, htk]
  rw [show find_protocol [ev1527_loaded] (String.mk "ev1527".data)
      = some ev1527_loaded from rfl, hdp]
  simp

lemma composeCodes_ev_bits :
    ∀ (bits : List Char) (len : Nat), bits.length ≤ len →
      (∀ c ∈ bits, c = '0' ∨ c = '1') →
      composeCodes ev1527_loaded bits len
        = flatPairs (bits.map ev_mid_pair) ++ [0] := by
  intro bits
  induction bits with
  | nil => intro len _ _; rfl
  | cons c rest ih =>
    intro len hle hbits
    cases len with
    | zero => simp at hle
    | succ len =>
      have hc := hbits c (List.mem_cons_self c rest)
      have hr := ih len (by simp at hle; omega)
        (fun x hx => hbits x (List.mem_cons_of_mem c hx))
      cases hc with
      | inl h =>
        subst h
        rw [show composeCodes ev1527_loaded ('0' :: rest) (len + 1)
            = 320 :: 960 :: composeCodes ev1527_loaded rest len from rfl, hr]
        rfl
      | inr h =>
        subst h
        rw [show composeCodes ev1527_loaded ('1' :: rest) (len + 1)
            = 960 :: 320 :: composeCodes ev1527_loaded rest len from rfl, hr]
        rfl

lemma feedProt_append (p : SignalProtocol) (xs ys : List Nat) :
    feedProt p (xs ++ ys)
      = ((feedProt (feedProt p xs).1 ys).1,
         (feedProt p xs).2 ++ (feedProt (feedProt p xs).1 ys).2) := by
  induction xs generalizing p with
  | nil => simp [feedProt]
  | cons d ds ih =>
    simp only [List.cons_append, feedProt_cons, ih]
    simp

lemma map_bitChar_mid (bits : List Char)
    (hbits : ∀ c ∈ bits, c = '0' ∨ c = '1') :
    (bits.map ev_mid_pair).map (bitChar 320) = bits := by
  induction bits with
  | nil => rfl
  | cons c rest ih =>
    have hc := hbits c (List.mem_cons_self c rest)
    have hr := ih (fun x hx => hbits x (List.mem_cons_of_mem c hx))
    cases hc with
    | inl h =>
      subst h
      simp only [List.map_cons, hr]
      rw [show bitChar 320 (ev_mid_pair '0') = '0' from by decide]
    | inr h =>
      subst h
      simp only [List.map_cons, hr]
      rw [show bitChar 320 (ev_mid_pair '1') = '1' from by decide]

lemma mid_pairs_fit (bits : List Char)
    (hbits : ∀ c ∈ bits, c = '0' ∨ c = '1') :
    ∀ pr ∈ bits.map ev_mid_pair, bitFits 320 pr := by
  intro pr hpr
  rcases List.mem_map.mp hpr with ⟨c, hc, rfl⟩
  cases hbits c hc with
  | inl h => subst h; exact (by decide : bitFits 320 (ev_mid_pair '0'))
  | inr h => subst h; exact (by decide : bitFits 320 (ev_mid_pair '1'))

/-- Claim C1: round trip for the loaded protocol table.  The program
loads only ev1527 (`rf_receiver_init`); for every acceptable sequence —
`'s'` then 24 data bits — composing `"ev1527 s<bits>"` into durations
(slot midpoints, zero-terminated) and feeding those exact durations back
through the parser yields exactly one event, equal to the composed
string, with the session reset. -/
theorem c1_round_trip (bits : List Char) (len : Nat)
    (hlen : bits.length = 24) (hbudget : 25 ≤ len)
    (hbits : ∀ c ∈ bits, c = '0' ∨ c = '1') :
    feed [ev1527_loaded]
        (signal_parser_compose [ev1527_loaded]
          ("ev1527".data ++ ' ' :: 's' :: bits) len)
      = ([ev1527_loaded], [String.mk ("ev1527".data ++ ' ' :: 's' :: bits)]) := by
  obtain ⟨l, rfl⟩ : ∃ l, len = l + 1 := ⟨len - 1, by omega⟩
  rw [compose_ev1527]
  rw [show composeCodes ev1527_loaded ('s' :: bits) (l + 1)
      = 320 :: 9920 :: composeCodes ev1527_loaded bits l from rfl]
  rw [composeCodes_ev_bits bits l (by omega) hbits]
  rw [feed_single]
  have e0 : parse_protocol (evState 320 []) 320 = (evS1 320, none) :=
    ev_parse_d0 320 (by decide)
  have e1 : parse_protocol (evS1 320) 9920
      = (evState ((320 + 9920) / 32) ['s'], none) :=
    ev_parse_d1 320 9920 (by decide)
  have hstr := ev_stream 320 (by norm_num) (bits.map ev_mid_pair) ['s']
    (by norm_num) (by norm_num) (by simp [hlen]) (mid_pairs_fit bits hbits)
  rw [show feedProt ev1527_loaded
        (320 :: 9920 :: (flatPairs (bits.map ev_mid_pair) ++ [0]))
      = feedProt (evState 320 [])
        (320 :: 9920 :: (flatPairs (bits.map ev_mid_pair) ++ [0])) from rfl,
    feedProt_cons, e0]
  simp only [feedProt_cons, e1]
  rw [show ((320 + 9920) / 32 : Nat) = 320 from by norm_num]
  rw [feedProt_append, hstr]
  rw [show feedProt ev1527_loaded [0] = (ev1527_loaded, []) from rfl]
  simp [map_bitChar_mid bits hbits]

/-- Witness for C1 at the demo payload with budget 256. -/
theorem c1_round_trip_witness :
    feed [ev1527_loaded]
        (signal_parser_compose [ev1527_loaded]
          ("ev1527".data ++ ' ' :: 's' :: ev1527_demo_bits) 256)
      = ([ev1527_loaded],
         [String.mk ("ev1527".data ++ ' ' :: 's' :: ev1527_demo_bits)]) :=
  c1_round_trip ev1527_demo_bits 256 (by decide) (by decide) (by decide)

end RFCodes
